import Mathlib

/-!
# Dynamic form engine (src/src/components/Form.jsx)

A shallow embedding of the `DynamicForm` component: the schema table
`API_RESPONSES`, the React state of the component and its five event handlers
together with the deferred reset callback.  Each handler is a function from
the state it closes over to the state after all queued updates are applied.

Modelling conventions:
* a JavaScript object is an association list in insertion order; reading a
  missing key gives `none` (the JavaScript `undefined`);
* property values are numbers (the `id` stamped by `Date.now()`) or strings;
* a handler that raises a `TypeError` ends in `Outcome.threw`, carrying the
  state with the updates queued before the exception; when one of these
  updates is `setFormFields(undefined)` the render that follows raises too and
  the component is unmounted (`Outcome.unmounted`);
* `progress` holds the value of an IEEE 754 double as a rational, `none`
  standing for `NaN` (the result of `0 / 0`); the division and the
  multiplication that compute it each round to the nearest double, ties to
  even (`toDouble`);
* the pending `setTimeout` callbacks are counted in the field `timers`;
* no field name of the schema table collides with a property inherited from
  `Object.prototype`, so the reads of `formData` and `errors` see own
  properties only; a form type is any string, and the lookup of `handleEdit`
  in `API_RESPONSES` does see the inherited properties (`inheritedNames`).
-/

namespace DynamicForm

/-! ## JavaScript values and objects -/

/-- A property value: a number or a string. -/
inductive JSVal where
  | num (n : Int)
  | str (s : String)
  deriving DecidableEq, Repr

/-- An object with values in `α`: keys in insertion order. -/
abbrev Dict (α : Type) := List (String × α)

/-- Property read `o[k]`; `none` is `undefined`. -/
def Dict.get {α : Type} : Dict α → String → Option α
  | [], _ => none
  | (k', v) :: o, k => if k' = k then some v else Dict.get o k

/-- Property write `o[k] = v` (on a copy): an existing key keeps its position,
a new key is appended. -/
def Dict.set {α : Type} : Dict α → String → α → Dict α
  | [], k, v => [(k, v)]
  | (k', v') :: o, k, v => if k' = k then (k, v) :: o else (k', v') :: Dict.set o k v

/-- Property removal `delete o[k]` (on a copy). -/
def Dict.del {α : Type} (o : Dict α) (k : String) : Dict α :=
  o.filter (fun p => decide (p.1 ≠ k))

/-- The list `Object.keys(o)`. -/
def Dict.keys {α : Type} (o : Dict α) : List String := o.map Prod.fst

/-- A plain object as stored in `formData` and `submittedData`. -/
abbrev Obj := Dict JSVal

/-- Code points removed by `String.prototype.trim`: the ECMAScript WhiteSpace
and LineTerminator productions. -/
def isJSWhitespace (c : Char) : Bool :=
  let n := c.toNat
  n = 9 || n = 10 || n = 11 || n = 12 || n = 13 || n = 32 || n = 160 || n = 5760
    || (8192 ≤ n && n ≤ 8202) || n = 8232 || n = 8233 || n = 8239 || n = 8287
    || n = 12288 || n = 65279

/-- The method `s.trim()`. -/
def jsTrim (s : String) : String :=
  String.mk ((s.data.dropWhile isJSWhitespace).reverse.dropWhile isJSWhitespace).reverse

/-- Truthiness of a property read. -/
def truthy : Option JSVal → Bool
  | none => false
  | some (JSVal.num n) => decide (n ≠ 0)
  | some (JSVal.str s) => decide (s ≠ "")

/-- The test `!v || v.trim() === ''` of `handleSubmit`; `none` is the
`TypeError` raised by calling `trim` on a non-zero number. -/
def isBlank : Option JSVal → Option Bool
  | none => some true
  | some (JSVal.num n) => if n = 0 then some true else none
  | some (JSVal.str s) => some (decide (s = "") || decide (jsTrim s = ""))

/-- The test `v && v.trim() !== ''` of the progress computation, as a
boolean; `none` is the `TypeError` raised by `trim` on a non-zero number. -/
def isFilled : Option JSVal → Option Bool
  | none => some false
  | some (JSVal.num n) => if n = 0 then some false else none
  | some (JSVal.str s) => some (decide (s ≠ "") && decide (jsTrim s ≠ ""))

/-! ## The schema table -/

/-- One field descriptor of a schema. -/
structure Field where
  name : String
  type : String
  label : String
  required : Bool
  options : Option (List String)
  deriving DecidableEq, Repr

/-- One value of the table `API_RESPONSES`. -/
structure Schema where
  fields : List Field
  deriving DecidableEq, Repr

/-- The constant `API_RESPONSES`. -/
def API_RESPONSES : Dict Schema :=
  [ ("User Information", Schema.mk
      [ Field.mk "firstName" "text" "First Name" true none,
        Field.mk "lastName" "text" "Last Name" true none,
        Field.mk "age" "number" "Age" false none ]),
    ("Address Information", Schema.mk
      [ Field.mk "street" "text" "Street" true none,
        Field.mk "city" "text" "City" true none,
        Field.mk "state" "dropdown" "State" true (some ["California", "Texas", "New York"]),
        Field.mk "zipCode" "text" "Zip Code" false none ]),
    ("Payment Information", Schema.mk
      [ Field.mk "cardNumber" "text" "Card Number" true none,
        Field.mk "expiryDate" "date" "Expiry Date" true none,
        Field.mk "cvv" "password" "CVV" true none,
        Field.mk "cardholderName" "text" "Cardholder Name" true none ]) ]

/-- The expression `API_RESPONSES[type]?.fields || []`. -/
def fieldsOrEmpty (type : String) : List Field :=
  match API_RESPONSES.get type with
  | some schema => schema.fields
  | none => []

/-! ## Component state -/

/-- The ten `useState` cells of `DynamicForm` as a render sees them, and the
number of pending `setTimeout` callbacks.  `formFields` is an array in every
state that is rendered: the one update that makes it `undefined` ends the
component (see `Outcome.unmounted`). -/
structure State where
  selectedFormType : String
  formFields : List Field
  formData : Obj
  errors : Dict String
  submittedData : List Obj
  progress : Option ℚ
  successMessage : String
  loading : Bool
  isEditing : Bool
  editingId : Option Int
  timers : Nat
  deriving DecidableEq

/-- The initial values passed to `useState`. -/
def State.initial : State where
  selectedFormType := ""
  formFields := []
  formData := []
  errors := []
  submittedData := []
  progress := some 0
  successMessage := ""
  loading := false
  isEditing := false
  editingId := none
  timers := 0

/-- How a handler call ends: normally, or by an uncaught `TypeError`, in both
cases with the state after the updates queued so far; or by an uncaught
`TypeError` after `setFormFields(undefined)` was queued, in which case the
next render raises on `formFields.map` and React unmounts the component:
`last` is the last state that was rendered. -/
inductive Outcome where
  | returned (s : State)
  | threw (s : State)
  | unmounted (last : State)
  deriving DecidableEq

/-- The state the component continues with; an unmounted component has no
further state, and the last rendered one is given. -/
def Outcome.state : Outcome → State
  | Outcome.returned s => s
  | Outcome.threw s => s
  | Outcome.unmounted last => last

/-! ## Progress -/

/-- Rounding of a rational to the nearest integer, a tie going to the even
neighbour. -/
def roundHalfEven (q : ℚ) : ℤ :=
  if q - ⌊q⌋ < 1 / 2 then ⌊q⌋
  else if 1 / 2 < q - ⌊q⌋ then ⌊q⌋ + 1
  else if ⌊q⌋ % 2 = 0 then ⌊q⌋ else ⌊q⌋ + 1

/-- The IEEE 754 binary64 number nearest to a rational `q ≥ 0`, ties to even:
`q` is scaled by a power of two to a significand between `2^52` and `2^53`,
the significand is rounded to an integer and scaled back.  The numbers
rounded here lie between `2^-32` and `100` (an array has fewer than `2^32`
elements), far from the subnormal range and from overflow. -/
def toDouble (q : ℚ) : ℚ :=
  if q ≤ 0 then 0
  else (roundHalfEven (q * (2 : ℚ) ^ (52 - Int.log 2 q)) : ℚ) * (2 : ℚ) ^ (Int.log 2 q - 52)

/-- The expression `(completed.length / required.length) * 100` in double
arithmetic, for `completed ≤ required`: the two lengths are exact doubles, the
quotient is rounded, and so is its product with 100; `none` is `NaN`, the
value of `0 / 0`. -/
def progressOf (completed required : Nat) : Option ℚ :=
  if required = 0 then none
  else some (toDouble (toDouble ((completed : ℚ) / (required : ℚ)) * 100))

/-- The call `requiredFields.filter(field => data[field.name] &&
data[field.name].trim() !== '')`; `none` when the callback raises. -/
def completedRequired : List Field → Obj → Option (List Field)
  | [], _ => some []
  | f :: fs, data =>
    match isFilled (data.get f.name) with
    | none => none
    | some b =>
      match completedRequired fs data with
      | none => none
      | some rest => some (if b then f :: rest else rest)

/-! ## Validation (first half of `handleSubmit`) -/

/-- The loop `formFields.forEach(...)` filling `newErrors`; `none` when the
callback raises. -/
def requiredErrors : List Field → Obj → Dict String → Option (Dict String)
  | [], _, acc => some acc
  | f :: fs, data, acc =>
    if f.required then
      match isBlank (data.get f.name) with
      | none => none
      | some true => requiredErrors fs data (acc.set f.name (f.label ++ " is required"))
      | some false => requiredErrors fs data acc
    else requiredErrors fs data acc

/-- Matching `n` digits and then the end of input. -/
def digitsThenEnd : Nat → List Char → Bool
  | 0, cs => cs.isEmpty
  | _ + 1, [] => false
  | n + 1, c :: cs => (decide ('0' ≤ c) && decide (c ≤ '9')) && digitsThenEnd n cs

/-- The call `/^\d{16}$/.test(v)`; a number is first converted to its decimal
expansion, which has 16 digits exactly between `10^15` and `10^16`. -/
def cardNumberRegex : JSVal → Bool
  | JSVal.str s => digitsThenEnd 16 s.data
  | JSVal.num n => decide (10 ^ 15 ≤ n) && decide (n < 10 ^ 16)

/-- The block `if (selectedFormType === 'Payment Information') ...`. -/
def cardRule (selectedFormType : String) (data : Obj) (newErrors : Dict String) : Dict String :=
  if selectedFormType = "Payment Information" then
    match data.get "cardNumber" with
    | none => newErrors
    | some v =>
      if truthy (some v) && !cardNumberRegex v then
        newErrors.set "cardNumber" "Card number must be 16 digits"
      else newErrors
  else newErrors

/-- The object `newErrors` when `handleSubmit` reaches its length test. -/
def validationErrors (s : State) : Option (Dict String) :=
  (requiredErrors s.formFields s.formData []).map (cardRule s.selectedFormType s.formData)

/-! ## Handlers -/

/-- The handler `handleFormTypeChange`, applied to `event.target.value`. -/
def handleFormTypeChange (type : String) (s : State) : State :=
  { s with
    selectedFormType := type
    formFields := fieldsOrEmpty type
    formData := []
    errors := []
    progress := some 0 }

/-- The handler `handleInputChange`. -/
def handleInputChange (name value : String) (s : State) : Outcome :=
  let updatedFormData := s.formData.set name (JSVal.str value)
  let requiredFields := s.formFields.filter (fun field => field.required)
  match completedRequired requiredFields updatedFormData with
  | none => Outcome.threw { s with formData := updatedFormData }
  | some completedRequiredFields =>
    Outcome.returned { s with
      formData := updatedFormData
      progress := progressOf completedRequiredFields.length requiredFields.length
      errors := s.errors.del name }

/-- The value of `isEditing && editingId` when it is truthy, that is the id
under edit; `none` when the test fails: `isEditing` false, `editingId` null,
or `editingId` the number 0. -/
def editTarget (s : State) : Option Int :=
  if s.isEditing then
    match s.editingId with
    | none => none
    | some n => if n ≠ 0 then some n else none
  else none

/-- The object literal spreading `formData` and then setting `id` and
`formType`. -/
def mkEntry (data : Obj) (id : Int) (formType : String) : Obj :=
  (data.set "id" (JSVal.num id)).set "formType" (JSVal.str formType)

/-- The comparison `entry.id === id` for a number `id`. -/
def hasId (id : Int) (entry : Obj) : Bool :=
  decide (entry.get "id" = some (JSVal.num id))

/-- The handler `handleSubmit`; `now` is the reading of `Date.now()`. -/
def handleSubmit (now : Int) (s : State) : Outcome :=
  match validationErrors s with
  | none => Outcome.threw s
  | some newErrors =>
    if newErrors.length > 0 then
      Outcome.returned { s with errors := newErrors }
    else
      let message :=
        if s.isEditing then "Form updated successfully!" else "Form submitted successfully!"
      match editTarget s with
      | some editingId =>
        Outcome.returned { s with
          submittedData := s.submittedData.map (fun entry =>
            if hasId editingId entry then mkEntry s.formData editingId s.selectedFormType
            else entry)
          isEditing := false
          editingId := none
          successMessage := message
          timers := s.timers + 1 }
      | none =>
        Outcome.returned { s with
          submittedData := s.submittedData ++ [mkEntry s.formData now s.selectedFormType]
          successMessage := message
          timers := s.timers + 1 }

/-- The callback passed to `setTimeout` by `handleSubmit`. -/
def resetCallback (s : State) : State :=
  { s with
    successMessage := ""
    selectedFormType := ""
    formFields := []
    formData := []
    progress := some 0
    isEditing := false
    editingId := none
    timers := s.timers - 1 }

/-- The names of the properties that the object literal `API_RESPONSES`
inherits from `Object.prototype`. -/
def inheritedNames : List String :=
  ["constructor", "__defineGetter__", "__defineSetter__", "hasOwnProperty",
   "__lookupGetter__", "__lookupSetter__", "isPrototypeOf", "propertyIsEnumerable",
   "toString", "valueOf", "__proto__", "toLocaleString"]

/-- The handler `handleEdit`.  It raises when no entry has the id (reading
`formType` of `undefined`, before any update is queued) and when
`API_RESPONSES[formType]` is `undefined` (reading `fields` of `undefined`,
after `setSelectedFormType`).  When the form type names an inherited property,
`API_RESPONSES[formType]` is a function or an object without `fields`: the
handler queues `setFormFields(undefined)` and the updates that follow, and
raises at `.fields.filter`; the render that follows raises as well and the
component is unmounted.  An entry whose `formType` is not a string has no
schema either; the update queued for it does not fit the type of
`selectedFormType` and is left out. -/
def handleEdit (id : Int) (s : State) : Outcome :=
  match s.submittedData.find? (hasId id) with
  | none => Outcome.threw s
  | some entryToEdit =>
    match entryToEdit.get "formType" with
    | some (JSVal.str formType) =>
      match API_RESPONSES.get formType with
      | none =>
        if formType ∈ inheritedNames then Outcome.unmounted s
        else Outcome.threw { s with selectedFormType := formType }
      | some schema =>
        let editedFormData := (entryToEdit.del "id").del "formType"
        let s1 : State := { s with
          selectedFormType := formType
          formFields := schema.fields
          formData := editedFormData
          isEditing := true
          editingId := some id }
        let requiredFields := schema.fields.filter (fun field => field.required)
        match completedRequired requiredFields editedFormData with
        | none => Outcome.threw s1
        | some completedRequiredFields =>
          Outcome.returned { s1 with
            progress := progressOf completedRequiredFields.length requiredFields.length }
    | _ => Outcome.threw s

/-- The handler `handleDelete`. -/
def handleDelete (id : Int) (s : State) : State :=
  { s with submittedData := s.submittedData.filter (fun entry => !hasId id entry) }

/-! ## Events and runs -/

/-- What can happen to the component: a call of one of the five handlers, or
the firing of a pending reset timer. -/
inductive Event where
  | formTypeChange (type : String)
  | inputChange (name value : String)
  | submit (now : Int)
  | edit (id : Int)
  | delete (id : Int)
  | timeout
  deriving DecidableEq, Repr

/-- The state after one event; after an uncaught exception the component goes
on with the updates queued before it.  Nothing follows the unmounting of the
component: a run stays at the last rendered state and the events after it do
not occur in the program. -/
def step (s : State) : Event → State
  | Event.formTypeChange type => handleFormTypeChange type s
  | Event.inputChange name value => (handleInputChange name value s).state
  | Event.submit now => (handleSubmit now s).state
  | Event.edit id => (handleEdit id s).state
  | Event.delete id => handleDelete id s
  | Event.timeout => resetCallback s

/-- The state after a sequence of events. -/
def run (s : State) : List Event → State
  | [] => s
  | e :: es => run (step s e) es

/-- The events the rendered controls can raise in state `s`: the selector
offers the keys of `API_RESPONSES`; the inputs and the submit button exist
while `selectedFormType` is truthy, one input per field of `formFields`; each
row of the table has an edit and a delete button bound to `entry.id`. -/
def enabled (s : State) : Event → Bool
  | Event.formTypeChange type => decide (type ∈ API_RESPONSES.keys)
  | Event.inputChange name _ =>
    decide (s.selectedFormType ≠ "") && decide (name ∈ s.formFields.map Field.name)
  | Event.submit _ => decide (s.selectedFormType ≠ "") && !s.loading
  | Event.edit id => s.submittedData.any (hasId id)
  | Event.delete id => s.submittedData.any (hasId id)
  | Event.timeout => decide (0 < s.timers)

/-- Every event of the sequence is raised by a rendered control. -/
def enabledRun (s : State) : List Event → Bool
  | [] => true
  | e :: es => enabled s e && enabledRun (step s e) es

/-- The clock readings of successive submits are strictly increasing and
greater than `last`. -/
def clockIncreasing (last : Int) : List Event → Bool
  | [] => true
  | Event.submit now :: es => decide (last < now) && clockIncreasing now es
  | _ :: es => clockIncreasing last es

/-- The ids of the stored entries, in order. -/
def storeIds (store : List Obj) : List (Option JSVal) :=
  store.map (fun entry => entry.get "id")

/-! ## Vocabulary of the specification -/

/-- Every value of the object is a string. -/
def strValued (data : Obj) : Bool :=
  data.all (fun p => match p.2 with
    | JSVal.str _ => true
    | JSVal.num _ => false)

/-- The value under `name` is absent, empty or consists of whitespace only. -/
def blankValue (data : Obj) (name : String) : Bool :=
  match data.get name with
  | none => true
  | some (JSVal.str s) => s.data.all isJSWhitespace
  | some (JSVal.num _) => false

/-- The value under `name` is a string of exactly 16 decimal digits. -/
def sixteenDigits (data : Obj) (name : String) : Bool :=
  match data.get name with
  | some (JSVal.str s) => decide (s.data.length = 16) && s.data.all (fun c => decide ('0' ≤ c ∧ c ≤ '9'))
  | _ => false

/-- The value under `name` is a non-empty string. -/
def nonEmptyValue (data : Obj) (name : String) : Bool :=
  match data.get name with
  | some (JSVal.str s) => decide (s ≠ "")
  | _ => false

/-- The number of required fields of `fields` whose value in `data` is not
blank. -/
def filledRequired (fields : List Field) (data : Obj) : Nat :=
  ((fields.filter (fun f => f.required)).filter (fun f => !blankValue data f.name)).length

/-- The number of required fields of `fields`. -/
def requiredCount (fields : List Field) : Nat :=
  (fields.filter (fun f => f.required)).length

/-- The values held by a session: strings only, under keys other than `id`
and `formType`. -/
def plainData (data : Obj) : Bool :=
  strValued data && !decide ("id" ∈ data.keys) && !decide ("formType" ∈ data.keys)

/-- An entry as `handleSubmit` builds it from a session that passed validation
against a schema of the table, stamped with a positive clock reading at most
`c`. -/
def GoodEntry (c : Int) (entry : Obj) : Prop :=
  ∃ data n formType schema,
    entry = data ++ [("id", JSVal.num n), ("formType", JSVal.str formType)] ∧
    plainData data = true ∧
    API_RESPONSES.get formType = some schema ∧
    requiredErrors schema.fields data [] = some [] ∧
    cardRule formType data [] = [] ∧
    0 < n ∧ n ≤ c

/-- The invariant of the runs driven by the rendered controls under an
increasing positive clock whose last reading is `c`. -/
def Inv (c : Int) (s : State) : Prop :=
  s.formFields = fieldsOrEmpty s.selectedFormType ∧
  (s.selectedFormType = "" ∨ s.selectedFormType ∈ API_RESPONSES.keys) ∧
  plainData s.formData = true ∧
  s.loading = false ∧
  (∀ entry ∈ s.submittedData, GoodEntry c entry) ∧
  (storeIds s.submittedData).Nodup

/-- Every stored id is a number at most `c`, and no id occurs twice. -/
def Stamped (c : Int) (store : List Obj) : Prop :=
  (∀ entry ∈ store, ∃ n, entry.get "id" = some (JSVal.num n) ∧ n ≤ c) ∧
  (storeIds store).Nodup

/-- How the handler bound to an event ends; the three handlers without a
partial operation always return. -/
def dispatch (s : State) : Event → Outcome
  | Event.formTypeChange type => Outcome.returned (handleFormTypeChange type s)
  | Event.inputChange name value => handleInputChange name value s
  | Event.submit now => handleSubmit now s
  | Event.edit id => handleEdit id s
  | Event.delete id => Outcome.returned (handleDelete id s)
  | Event.timeout => Outcome.returned (resetCallback s)

/-- Every call of `handleInputChange` in the sequence names a field of the
field list current at that moment. -/
def inputsNamed (s : State) : List Event → Bool
  | [] => true
  | Event.inputChange name value :: es =>
    decide (name ∈ s.formFields.map Field.name) &&
      inputsNamed (step s (Event.inputChange name value)) es
  | e :: es => inputsNamed (step s e) es

/-- The entry passes validation against the schema of its own form type:
every required field of that schema has a value that is not blank, and an
entry of type "Payment Information" has a `cardNumber` of 16 digits. -/
def entryPasses (entry : Obj) : Bool :=
  match entry.get "formType" with
  | some (JSVal.str formType) =>
    (fieldsOrEmpty formType).all (fun f => !f.required || !blankValue entry f.name) &&
      (decide (formType ≠ "Payment Information") || sixteenDigits entry "cardNumber")
  | _ => false

/-- An entry as `handleSubmit` builds it from a session of the rendered form
that passed validation against a schema of the table. -/
def ShapedEntry (entry : Obj) : Prop :=
  ∃ data n formType schema,
    entry = data ++ [("id", JSVal.num n), ("formType", JSVal.str formType)] ∧
    plainData data = true ∧
    API_RESPONSES.get formType = some schema ∧
    requiredErrors schema.fields data [] = some [] ∧
    cardRule formType data [] = []

/-- The invariant of the runs driven by the rendered controls, whatever the
clock reads. -/
def Rendered (s : State) : Prop :=
  s.formFields = fieldsOrEmpty s.selectedFormType ∧
  (s.selectedFormType = "" ∨ s.selectedFormType ∈ API_RESPONSES.keys) ∧
  plainData s.formData = true ∧
  s.loading = false ∧
  (∀ entry ∈ s.submittedData, ShapedEntry entry)

/-- The invariant of the runs in which `handleInputChange` is called with
names of current fields only: the keys of the values are field names, a form
type of the table has its own field list, and the keys of a stored entry of
such a form type, `id` and `formType` apart, are names of its schema. -/
def KeysInv (s : State) : Prop :=
  (∀ k ∈ s.formData.keys, k ∈ s.formFields.map Field.name) ∧
  (s.selectedFormType ∈ API_RESPONSES.keys →
    s.formFields = fieldsOrEmpty s.selectedFormType) ∧
  (∀ entry ∈ s.submittedData, ∀ formType schema,
    entry.get "formType" = some (JSVal.str formType) →
    API_RESPONSES.get formType = some schema →
    ∀ k ∈ ((entry.del "id").del "formType").keys, k ∈ schema.fields.map Field.name)

/-- The invariant of all runs, whatever the arguments of the handler calls:
the values are strings, a form type of the table has its own field list, and
every stored entry passes validation and holds strings apart from its `id`
and `formType`. -/
def SessionInv (s : State) : Prop :=
  strValued s.formData = true ∧
  (s.selectedFormType ∈ API_RESPONSES.keys →
    s.formFields = fieldsOrEmpty s.selectedFormType) ∧
  (∀ entry ∈ s.submittedData,
    entryPasses entry = true ∧ strValued ((entry.del "id").del "formType") = true)

/-! ## Objects -/

theorem Dict.get_set_same {α : Type} (o : Dict α) (k : String) (v : α) :
    (o.set k v).get k = some v := by
  induction o with
  | nil => simp [Dict.set, Dict.get]
  | cons p o ih =>
    obtain ⟨k', v'⟩ := p
    by_cases h : k' = k
    · simp [Dict.set, Dict.get, h]
    · simp [Dict.set, Dict.get, h, ih]

theorem Dict.get_set_ne {α : Type} (o : Dict α) (k k' : String) (v : α) (h : k' ≠ k) :
    (o.set k v).get k' = o.get k' := by
  induction o with
  | nil => simp [Dict.set, Dict.get, Ne.symm h]
  | cons p o ih =>
    obtain ⟨k0, v0⟩ := p
    by_cases h0 : k0 = k
    · subst h0
      simp [Dict.set, Dict.get, Ne.symm h]
    · by_cases h1 : k0 = k'
      · subst h1
        simp [Dict.set, Dict.get, h0]
      · simp [Dict.set, Dict.get, h0, h1, ih]

theorem Dict.set_ne_nil {α : Type} (o : Dict α) (k : String) (v : α) : o.set k v ≠ [] := by
  cases o with
  | nil => simp [Dict.set]
  | cons p o =>
    obtain ⟨k', v'⟩ := p
    by_cases h : k' = k <;> simp [Dict.set, h]

theorem Dict.set_of_not_mem {α : Type} (o : Dict α) (k : String) (v : α) (h : k ∉ o.keys) :
    o.set k v = o ++ [(k, v)] := by
  induction o with
  | nil => simp [Dict.set]
  | cons p o ih =>
    obtain ⟨k', v'⟩ := p
    simp only [Dict.keys, List.map_cons, List.mem_cons, not_or] at h
    have h1 : ¬ k' = k := fun e => h.1 e.symm
    simp only [Dict.set, h1, if_false, List.cons_append]
    rw [ih h.2]

theorem Dict.del_of_not_mem {α : Type} (o : Dict α) (k : String) (h : k ∉ o.keys) :
    o.del k = o := by
  unfold Dict.del
  rw [List.filter_eq_self]
  intro p hp
  have : p.1 ≠ k := by
    intro e
    apply h
    rw [← e]
    exact List.mem_map_of_mem Prod.fst hp
  simpa using this

theorem Dict.del_append {α : Type} (o o' : Dict α) (k : String) :
    (o ++ o').del k = o.del k ++ o'.del k := by
  simp [Dict.del]

theorem Dict.get_eq_none_of_not_mem {α : Type} (o : Dict α) (k : String) (h : k ∉ o.keys) :
    o.get k = none := by
  induction o with
  | nil => rfl
  | cons p o ih =>
    obtain ⟨k', v'⟩ := p
    simp only [Dict.keys, List.map_cons, List.mem_cons, not_or] at h
    have h1 : ¬ k' = k := fun e => h.1 e.symm
    simp only [Dict.get, h1, if_false]
    exact ih h.2

theorem Dict.get_append_of_not_mem {α : Type} (o o' : Dict α) (k : String) (h : k ∉ o.keys) :
    (o ++ o').get k = o'.get k := by
  induction o with
  | nil => rfl
  | cons p o ih =>
    obtain ⟨k', v'⟩ := p
    simp only [Dict.keys, List.map_cons, List.mem_cons, not_or] at h
    have h1 : ¬ k' = k := fun e => h.1 e.symm
    simp only [List.cons_append, Dict.get, h1, if_false]
    exact ih h.2

theorem Dict.get_append_of_mem {α : Type} (o o' : Dict α) (k : String) (h : k ∈ o.keys) :
    (o ++ o').get k = o.get k := by
  induction o with
  | nil => simp [Dict.keys] at h
  | cons p o ih =>
    obtain ⟨k', v'⟩ := p
    by_cases h1 : k' = k
    · simp [Dict.get, h1]
    · simp only [Dict.keys, List.map_cons, List.mem_cons] at h
      have h2 : k ∈ Dict.keys o := by
        rcases h with h | h
        · exact absurd h.symm h1
        · exact h
      simp only [List.cons_append, Dict.get, h1, if_false]
      exact ih h2

theorem Dict.get_mem {α : Type} (o : Dict α) (k : String) (v : α) (h : o.get k = some v) :
    (k, v) ∈ o := by
  induction o with
  | nil => simp [Dict.get] at h
  | cons p o ih =>
    obtain ⟨k', v'⟩ := p
    by_cases h1 : k' = k
    · simp [Dict.get, h1] at h
      simp [h1, h]
    · simp only [Dict.get, h1, if_false] at h
      exact List.mem_cons_of_mem _ (ih h)

/-! ## Strings -/

theorem jsTrim_eq_empty_iff (s : String) :
    jsTrim s = "" ↔ s.data.all isJSWhitespace = true := by
  unfold jsTrim
  have h0 : ("" : String) = String.mk [] := rfl
  rw [h0, String.ext_iff]
  simp only [List.reverse_eq_nil_iff, List.dropWhile_eq_nil_iff]
  constructor
  · intro h
    by_contra hall
    have hne : s.data.dropWhile isJSWhitespace ≠ [] := by
      intro e
      rw [List.dropWhile_eq_nil_iff] at e
      exact hall (List.all_eq_true.mpr e)
    have hhead := List.head_dropWhile_not isJSWhitespace s.data hne
    have hmem : (s.data.dropWhile isJSWhitespace).head hne ∈
        (s.data.dropWhile isJSWhitespace).reverse :=
      List.mem_reverse.mpr (List.head_mem hne)
    have := h _ hmem
    simp [hhead] at this
  · intro h x hx
    have hnil : s.data.dropWhile isJSWhitespace = [] :=
      List.dropWhile_eq_nil_iff.mpr (List.all_eq_true.mp h)
    simp [hnil] at hx

theorem required_ne_card (label : String) :
    label ++ " is required" ≠ "Card number must be 16 digits" := by
  intro h
  have h1 := congrArg (fun s => s.data.reverse.head?) h
  simp [String.data_append] at h1

/-! ## Blank and filled values -/

theorem strValued_get (data : Obj) (k : String) (v : JSVal) (hty : strValued data = true)
    (h : data.get k = some v) : ∃ s, v = JSVal.str s := by
  have hm := Dict.get_mem data k v h
  have := List.all_eq_true.mp hty _ hm
  cases v with
  | num n => simp at this
  | str s => exact ⟨s, rfl⟩

theorem isBlank_of_strValued (data : Obj) (k : String) (hty : strValued data = true) :
    isBlank (data.get k) = some (blankValue data k) := by
  unfold blankValue
  cases h : data.get k with
  | none => rfl
  | some v =>
    obtain ⟨s, rfl⟩ := strValued_get data k v hty h
    simp only [isBlank, Option.some.injEq]
    by_cases hs : s.data.all isJSWhitespace = true
    · have := (jsTrim_eq_empty_iff s).mpr hs
      simp [this, hs]
    · have h1 : ¬ jsTrim s = "" := fun e => hs ((jsTrim_eq_empty_iff s).mp e)
      have h2 : ¬ s = "" := by
        intro e
        apply hs
        rw [e]
        rfl
      simp only [Bool.not_eq_true] at hs
      simp [h1, h2, hs]

theorem isFilled_of_strValued (data : Obj) (k : String) (hty : strValued data = true) :
    isFilled (data.get k) = some (!blankValue data k) := by
  unfold blankValue
  cases h : data.get k with
  | none => rfl
  | some v =>
    obtain ⟨s, rfl⟩ := strValued_get data k v hty h
    simp only [isFilled, Option.some.injEq]
    by_cases hs : s.data.all isJSWhitespace = true
    · have := (jsTrim_eq_empty_iff s).mpr hs
      simp [this, hs]
    · have h1 : ¬ jsTrim s = "" := fun e => hs ((jsTrim_eq_empty_iff s).mp e)
      have h2 : ¬ s = "" := by
        intro e
        apply hs
        rw [e]
        rfl
      simp only [Bool.not_eq_true] at hs
      simp [h1, h2, hs]

theorem strValued_set (data : Obj) (k v : String) (hty : strValued data = true) :
    strValued (data.set k (JSVal.str v)) = true := by
  induction data with
  | nil => rfl
  | cons p o ih =>
    obtain ⟨k', v'⟩ := p
    simp only [strValued, List.all_cons, Bool.and_eq_true] at hty ih ⊢
    by_cases h : k' = k
    · simp only [Dict.set, h, if_true, List.all_cons, Bool.and_eq_true]
      exact ⟨trivial, hty.2⟩
    · simp only [Dict.set, h, if_false, List.all_cons, Bool.and_eq_true]
      exact ⟨hty.1, ih hty.2⟩

/-! ## The validation loop -/

theorem requiredErrors_spec (fs : List Field) (data : Obj) (hty : strValued data = true)
    (acc : Dict String) :
    ∃ errs, requiredErrors fs data acc = some errs ∧
      ∀ k, (∃ f ∈ fs, f.required = true ∧ blankValue data f.name = true ∧ f.name = k ∧
              errs.get k = some (f.label ++ " is required")) ∨
           ((∀ f ∈ fs, f.required = true → blankValue data f.name = true → f.name ≠ k) ∧
              errs.get k = acc.get k) := by
  induction fs generalizing acc with
  | nil =>
    exact ⟨acc, rfl, fun k => Or.inr ⟨by simp, rfl⟩⟩
  | cons f fs ih =>
    by_cases hr : f.required = true
    · by_cases hb : blankValue data f.name = true
      · obtain ⟨errs, he, hp⟩ := ih (acc.set f.name (f.label ++ " is required"))
        refine ⟨errs, ?_, ?_⟩
        · simp only [requiredErrors, hr, if_true, isBlank_of_strValued data f.name hty, hb]
          exact he
        · intro k
          rcases hp k with ⟨g, hg, h1, h2, h3, h4⟩ | ⟨hno, hget⟩
          · exact Or.inl ⟨g, List.mem_cons_of_mem _ hg, h1, h2, h3, h4⟩
          · by_cases hk : f.name = k
            · refine Or.inl ⟨f, List.mem_cons_self _ _, hr, hb, hk, ?_⟩
              rw [hget, ← hk]
              exact Dict.get_set_same _ _ _
            · refine Or.inr ⟨?_, ?_⟩
              · intro g hg h1 h2
                rcases List.mem_cons.mp hg with e | hg
                · rw [e]; exact hk
                · exact hno g hg h1 h2
              · rw [hget]
                exact Dict.get_set_ne _ _ _ _ (Ne.symm hk)
      · obtain ⟨errs, he, hp⟩ := ih acc
        have hb' : blankValue data f.name = false := by simpa using hb
        refine ⟨errs, ?_, ?_⟩
        · simp only [requiredErrors, hr, if_true, isBlank_of_strValued data f.name hty, hb']
          exact he
        · intro k
          rcases hp k with ⟨g, hg, h1, h2, h3, h4⟩ | ⟨hno, hget⟩
          · exact Or.inl ⟨g, List.mem_cons_of_mem _ hg, h1, h2, h3, h4⟩
          · refine Or.inr ⟨?_, hget⟩
            intro g hg h1 h2
            rcases List.mem_cons.mp hg with e | hg
            · rw [e] at h2; exact absurd h2 hb
            · exact hno g hg h1 h2
    · obtain ⟨errs, he, hp⟩ := ih acc
      refine ⟨errs, ?_, ?_⟩
      · simp only [requiredErrors, hr]
        exact he
      · intro k
        rcases hp k with ⟨g, hg, h1, h2, h3, h4⟩ | ⟨hno, hget⟩
        · exact Or.inl ⟨g, List.mem_cons_of_mem _ hg, h1, h2, h3, h4⟩
        · refine Or.inr ⟨?_, hget⟩
          intro g hg h1 h2
          rcases List.mem_cons.mp hg with e | hg
          · rw [e] at h1; exact absurd h1 hr
          · exact hno g hg h1 h2

theorem digitsThenEnd_iff (n : Nat) (cs : List Char) :
    digitsThenEnd n cs = true ↔
      cs.length = n ∧ cs.all (fun c => decide ('0' ≤ c ∧ c ≤ '9')) = true := by
  induction n generalizing cs with
  | zero =>
    cases cs with
    | nil => simp [digitsThenEnd]
    | cons c cs => simp [digitsThenEnd]
  | succ n ih =>
    cases cs with
    | nil => simp [digitsThenEnd]
    | cons c cs =>
      simp only [digitsThenEnd, Bool.and_eq_true, ih, List.length_cons, List.all_cons,
        Nat.add_right_cancel_iff, decide_eq_true_eq, Bool.decide_and]
      tauto

theorem digitsThenEnd_eq (n : Nat) (cs : List Char) :
    digitsThenEnd n cs =
      (decide (cs.length = n) && cs.all (fun c => decide ('0' ≤ c ∧ c ≤ '9'))) := by
  rw [Bool.eq_iff_iff]
  simp only [Bool.and_eq_true, decide_eq_true_eq]
  exact digitsThenEnd_iff n cs

theorem cardRule_of_strValued (formType : String) (data : Obj) (errs : Dict String)
    (hty : strValued data = true) :
    cardRule formType data errs =
      if formType = "Payment Information" ∧ nonEmptyValue data "cardNumber" = true ∧
          sixteenDigits data "cardNumber" = false
      then errs.set "cardNumber" "Card number must be 16 digits" else errs := by
  unfold cardRule nonEmptyValue sixteenDigits
  by_cases hf : formType = "Payment Information"
  · simp only [hf, if_true, true_and]
    cases h : data.get "cardNumber" with
    | none => simp
    | some v =>
      obtain ⟨s, rfl⟩ := strValued_get data _ v hty h
      simp only [truthy, cardNumberRegex, digitsThenEnd_eq]
      split_ifs with ha hb hb
      · rfl
      · exfalso
        apply hb
        simp only [Bool.and_eq_true, Bool.not_eq_true'] at ha
        exact ha
      · exfalso
        apply ha
        simp only [Bool.and_eq_true, Bool.not_eq_true']
        exact hb
      · rfl
  · simp [hf]

/-! ## Rejected submissions -/

theorem handleSubmit_rejected (now : Int) (s : State) (errs : Dict String)
    (hv : validationErrors s = some errs) (hne : errs ≠ []) :
    handleSubmit now s = Outcome.returned { s with errors := errs } := by
  have hl : errs.length > 0 := List.length_pos.mpr hne
  simp only [handleSubmit, hv, hl, if_true]

theorem validationErrors_of_strValued (s : State) (hty : strValued s.formData = true) :
    ∃ errs0, requiredErrors s.formFields s.formData [] = some errs0 ∧
      validationErrors s = some
        (if s.selectedFormType = "Payment Information" ∧
            nonEmptyValue s.formData "cardNumber" = true ∧
            sixteenDigits s.formData "cardNumber" = false
         then errs0.set "cardNumber" "Card number must be 16 digits" else errs0) ∧
      ∀ k, (∃ f ∈ s.formFields, f.required = true ∧ blankValue s.formData f.name = true ∧
              f.name = k ∧ errs0.get k = some (f.label ++ " is required")) ∨
           ((∀ f ∈ s.formFields, f.required = true → blankValue s.formData f.name = true →
              f.name ≠ k) ∧ errs0.get k = none) := by
  obtain ⟨errs0, he, hp⟩ := requiredErrors_spec s.formFields s.formData hty []
  refine ⟨errs0, he, ?_, hp⟩
  simp only [validationErrors, he, Option.map_some', cardRule_of_strValued _ _ _ hty]

theorem Dict.get_nil {α : Type} (k : String) : Dict.get ([] : Dict α) k = none := rfl

/-- C1: when some required field of the current field list is blank (absent,
empty or whitespace only), `handleSubmit` returns the state it was called in
with only `errors` replaced; the new `errors` has an entry for every blank
required field, and the store, the success message and the pending timers are
as before the call. -/
theorem submit_blank_required_rejected (now : Int) (s : State)
    (hty : strValued s.formData = true)
    (hblank : ∃ f ∈ s.formFields, f.required = true ∧ blankValue s.formData f.name = true) :
    ∃ newErrors,
      handleSubmit now s = Outcome.returned { s with errors := newErrors } ∧
      (∀ f ∈ s.formFields, f.required = true → blankValue s.formData f.name = true →
        (newErrors.get f.name).isSome = true) ∧
      (handleSubmit now s).state.submittedData = s.submittedData ∧
      (handleSubmit now s).state.successMessage = s.successMessage ∧
      (handleSubmit now s).state.timers = s.timers := by
  obtain ⟨errs0, -, hv, hp⟩ := validationErrors_of_strValued s hty
  have hsome : ∀ f ∈ s.formFields, f.required = true → blankValue s.formData f.name = true →
      ((if s.selectedFormType = "Payment Information" ∧
            nonEmptyValue s.formData "cardNumber" = true ∧
            sixteenDigits s.formData "cardNumber" = false
         then errs0.set "cardNumber" "Card number must be 16 digits" else errs0).get
        f.name).isSome = true := by
    intro f hf hr hb
    have h0 : (errs0.get f.name).isSome = true := by
      rcases hp f.name with ⟨g, -, -, -, -, hg⟩ | ⟨hno, -⟩
      · rw [hg]; rfl
      · exact absurd rfl (hno f hf hr hb)
    split_ifs
    · by_cases hk : f.name = "cardNumber"
      · rw [hk, Dict.get_set_same]; rfl
      · rw [Dict.get_set_ne _ _ _ _ hk]; exact h0
    · exact h0
  have hne : (if s.selectedFormType = "Payment Information" ∧
            nonEmptyValue s.formData "cardNumber" = true ∧
            sixteenDigits s.formData "cardNumber" = false
         then errs0.set "cardNumber" "Card number must be 16 digits" else errs0) ≠ [] := by
    obtain ⟨f, hf, hr, hb⟩ := hblank
    intro e
    have := hsome f hf hr hb
    rw [e] at this
    simp [Dict.get_nil] at this
  have hs := handleSubmit_rejected now s _ hv hne
  refine ⟨_, hs, hsome, ?_, ?_, ?_⟩ <;> rw [hs] <;> rfl

/-- Witness of C1: "User Information" with only `firstName` filled, submitted
over a store that already holds one entry. -/
theorem submit_blank_required_rejected_witness :
    ∃ newErrors,
      handleSubmit 2000 (run State.initial
        [Event.formTypeChange "User Information", Event.inputChange "firstName" "Ana",
         Event.inputChange "lastName" "Lee", Event.submit 1000,
         Event.inputChange "lastName" "  "]) =
        Outcome.returned { run State.initial
          [Event.formTypeChange "User Information", Event.inputChange "firstName" "Ana",
           Event.inputChange "lastName" "Lee", Event.submit 1000,
           Event.inputChange "lastName" "  "] with errors := newErrors } ∧
      newErrors.get "lastName" = some "Last Name is required" := by
  obtain ⟨newErrors, h1, -, -, -, -⟩ := submit_blank_required_rejected 2000
    (run State.initial
      [Event.formTypeChange "User Information", Event.inputChange "firstName" "Ana",
       Event.inputChange "lastName" "Lee", Event.submit 1000,
       Event.inputChange "lastName" "  "])
    (by decide)
    ⟨Field.mk "lastName" "text" "Last Name" true none, by decide, by decide, by decide⟩
  refine ⟨newErrors, h1, ?_⟩
  have h2 : (handleSubmit 2000 (run State.initial
      [Event.formTypeChange "User Information", Event.inputChange "firstName" "Ana",
       Event.inputChange "lastName" "Lee", Event.submit 1000,
       Event.inputChange "lastName" "  "])).state.errors.get "lastName" =
      some "Last Name is required" := by decide
  rw [h1] at h2
  exact h2

/-! ## The messages of the validation -/

theorem blank_not_sixteenDigits (data : Obj) (k : String) (hb : blankValue data k = true) :
    sixteenDigits data k = false := by
  unfold blankValue at hb
  unfold sixteenDigits
  cases h : data.get k with
  | none => rfl
  | some v =>
    cases v with
    | num n => rfl
    | str s =>
      rw [h] at hb
      simp only at hb
      show (decide (s.data.length = 16) &&
        s.data.all (fun c => decide ('0' ≤ c ∧ c ≤ '9'))) = false
      cases hs : s.data with
      | nil => rfl
      | cons c cs =>
        rw [hs] at hb
        simp only [List.all_cons, Bool.and_eq_true] at hb
        have hc := hb.1
        have : ¬ ('0' ≤ c ∧ c ≤ '9') := by
          intro hd
          have h1 : 48 ≤ c.toNat := hd.1
          have h2 : c.toNat ≤ 57 := hd.2
          simp only [isJSWhitespace, Bool.or_eq_true, decide_eq_true_eq, Bool.and_eq_true] at hc
          omega
        simp [this]

/-- C2, counterexample: (1) on the "Payment Information" form the required
field `cardNumber` holding a single space is blank, yet `handleSubmit` does
not report "Card Number is required" for it; (2) in a field list with two
required fields of one name, the blank value is reported under the label of
the second field only. -/
theorem required_message_counterexample :
    (∃ f ∈ (run State.initial [Event.formTypeChange "Payment Information",
              Event.inputChange "cardNumber" " "]).formFields,
      f.required = true ∧
      blankValue (run State.initial [Event.formTypeChange "Payment Information",
              Event.inputChange "cardNumber" " "]).formData f.name = true ∧
      (handleSubmit 1000 (run State.initial [Event.formTypeChange "Payment Information",
              Event.inputChange "cardNumber" " "])).state.errors.get f.name ≠
        some (f.label ++ " is required") ∧
      (handleSubmit 1000 (run State.initial [Event.formTypeChange "Payment Information",
              Event.inputChange "cardNumber" " "])).state.errors.get f.name =
        some "Card number must be 16 digits") ∧
    (∃ f ∈ [Field.mk "a" "text" "First" true none, Field.mk "a" "text" "Second" true none],
      f.required = true ∧ blankValue [] f.name = true ∧
      (handleSubmit 1000 { State.initial with
        formFields := [Field.mk "a" "text" "First" true none,
          Field.mk "a" "text" "Second" true none] }).state.errors.get f.name ≠
        some (f.label ++ " is required")) :=
  ⟨⟨Field.mk "cardNumber" "text" "Card Number" true none, by decide, by decide, by decide,
    by decide, by decide⟩,
   ⟨Field.mk "a" "text" "First" true none, by decide, by decide, by decide, by decide⟩⟩

/-- C2, amended: for string values and a field list with pairwise distinct
names, the error mapping that `handleSubmit` computes maps every blank required
field to its label followed by " is required", except that on the
"Payment Information" form a non-empty (whitespace-only) `cardNumber` is
mapped to "Card number must be 16 digits"; a required field that is not blank
gets no message ending in " is required"; and a non-empty error mapping is
what `handleSubmit` stores in `errors`. -/
theorem required_message (now : Int) (s : State)
    (hty : strValued s.formData = true)
    (hnames : (s.formFields.map Field.name).Nodup) :
    ∃ newErrors,
      validationErrors s = some newErrors ∧
      (newErrors ≠ [] → handleSubmit now s = Outcome.returned { s with errors := newErrors }) ∧
      ∀ f ∈ s.formFields, f.required = true →
        (blankValue s.formData f.name = true →
          newErrors.get f.name = some
            (if s.selectedFormType = "Payment Information" ∧ f.name = "cardNumber" ∧
                nonEmptyValue s.formData "cardNumber" = true
             then "Card number must be 16 digits" else f.label ++ " is required")) ∧
        (blankValue s.formData f.name = false →
          ∀ label : String, newErrors.get f.name ≠ some (label ++ " is required")) := by
  obtain ⟨errs0, -, hv, hp⟩ := validationErrors_of_strValued s hty
  refine ⟨_, hv, fun hne => handleSubmit_rejected now s _ hv hne, ?_⟩
  intro f hf hr
  constructor
  · intro hb
    have h0 : errs0.get f.name = some (f.label ++ " is required") := by
      rcases hp f.name with ⟨g, hg, -, -, hgn, hget⟩ | ⟨hno, -⟩
      · have : g = f := by
          have hinj := List.inj_on_of_nodup_map hnames
          exact hinj hg hf hgn
        subst this
        rw [hgn]; exact hget
      · exact absurd rfl (hno f hf hr hb)
    by_cases hk : f.name = "cardNumber"
    · have h16 : sixteenDigits s.formData "cardNumber" = false := by
        rw [← hk]; exact blank_not_sixteenDigits _ _ hb
      by_cases hc : s.selectedFormType = "Payment Information" ∧
          nonEmptyValue s.formData "cardNumber" = true
      · have hA : s.selectedFormType = "Payment Information" ∧
            nonEmptyValue s.formData "cardNumber" = true ∧
            sixteenDigits s.formData "cardNumber" = false := ⟨hc.1, hc.2, h16⟩
        have hB : s.selectedFormType = "Payment Information" ∧ f.name = "cardNumber" ∧
            nonEmptyValue s.formData "cardNumber" = true := ⟨hc.1, hk, hc.2⟩
        rw [if_pos hA, if_pos hB, hk]
        exact Dict.get_set_same _ _ _
      · have hA : ¬ (s.selectedFormType = "Payment Information" ∧
            nonEmptyValue s.formData "cardNumber" = true ∧
            sixteenDigits s.formData "cardNumber" = false) := fun h => hc ⟨h.1, h.2.1⟩
        have hB : ¬ (s.selectedFormType = "Payment Information" ∧ f.name = "cardNumber" ∧
            nonEmptyValue s.formData "cardNumber" = true) := fun h => hc ⟨h.1, h.2.2⟩
        rw [if_neg hA, if_neg hB]
        exact h0
    · have hB : ¬ (s.selectedFormType = "Payment Information" ∧ f.name = "cardNumber" ∧
          nonEmptyValue s.formData "cardNumber" = true) := fun h => hk h.2.1
      rw [if_neg hB]
      split_ifs
      · rw [Dict.get_set_ne _ _ _ _ hk]; exact h0
      · exact h0
  · intro hb label
    have h0 : errs0.get f.name = none := by
      rcases hp f.name with ⟨g, -, -, hgb, hgn, -⟩ | ⟨-, hget⟩
      · rw [hgn, hb] at hgb; exact absurd hgb (by simp)
      · exact hget
    split_ifs
    · by_cases hk : f.name = "cardNumber"
      · rw [hk, Dict.get_set_same]
        intro e
        exact required_ne_card label (Option.some.inj e).symm
      · rw [Dict.get_set_ne _ _ _ _ hk, h0]; simp
    · rw [h0]; simp

/-- Witness of C2 (amended): "User Information" with `firstName` filled and
`lastName` blank. -/
theorem required_message_witness :
    (handleSubmit 1000 (run State.initial [Event.formTypeChange "User Information",
        Event.inputChange "firstName" "Ana"])).state.errors.get "lastName" =
      some "Last Name is required" ∧
    ∀ label : String,
      (handleSubmit 1000 (run State.initial [Event.formTypeChange "User Information",
        Event.inputChange "firstName" "Ana"])).state.errors.get "firstName" ≠
      some (label ++ " is required") := by
  obtain ⟨newErrors, -, hs, hall⟩ := required_message 1000
    (run State.initial [Event.formTypeChange "User Information",
      Event.inputChange "firstName" "Ana"]) (by decide) (by decide)
  have h1 := (hall (Field.mk "lastName" "text" "Last Name" true none) (by decide) rfl).1
    (by decide)
  have h2 := (hall (Field.mk "firstName" "text" "First Name" true none) (by decide) rfl).2
    (by decide)
  have hne : newErrors ≠ [] := by
    intro e
    rw [e] at h1
    simp [Dict.get_nil] at h1
  rw [hs hne]
  exact ⟨h1.trans (by decide), h2⟩

/-- C3: for string values, the error mapping that `handleSubmit` computes
holds "Card number must be 16 digits" under `cardNumber` exactly when the form
type is "Payment Information" and the value of `cardNumber` is a non-empty
string that is not exactly 16 decimal digits; and whenever it does,
`handleSubmit` only replaces `errors`, leaving the store as it was. -/
theorem card_number_rule (now : Int) (s : State) (hty : strValued s.formData = true) :
    ∃ newErrors,
      validationErrors s = some newErrors ∧
      (newErrors.get "cardNumber" = some "Card number must be 16 digits" ↔
        (s.selectedFormType = "Payment Information" ∧
          nonEmptyValue s.formData "cardNumber" = true ∧
          sixteenDigits s.formData "cardNumber" = false)) ∧
      (newErrors.get "cardNumber" = some "Card number must be 16 digits" →
        handleSubmit now s = Outcome.returned { s with errors := newErrors } ∧
        (handleSubmit now s).state.submittedData = s.submittedData) := by
  obtain ⟨errs0, -, hv, hp⟩ := validationErrors_of_strValued s hty
  have h0 : errs0.get "cardNumber" ≠ some "Card number must be 16 digits" := by
    rcases hp "cardNumber" with ⟨g, -, -, -, -, hget⟩ | ⟨-, hget⟩
    · rw [hget]
      intro e
      exact required_ne_card g.label (Option.some.inj e)
    · rw [hget]; simp
  refine ⟨_, hv, ?_, ?_⟩
  · constructor
    · intro h
      by_contra hc
      rw [if_neg hc] at h
      exact h0 h
    · intro hc
      rw [if_pos hc]
      exact Dict.get_set_same _ _ _
  · intro h
    have hne : (if s.selectedFormType = "Payment Information" ∧
            nonEmptyValue s.formData "cardNumber" = true ∧
            sixteenDigits s.formData "cardNumber" = false
         then errs0.set "cardNumber" "Card number must be 16 digits" else errs0) ≠ [] := by
      intro e
      rw [e] at h
      simp [Dict.get_nil] at h
    have hs := handleSubmit_rejected now s _ hv hne
    refine ⟨hs, ?_⟩
    rw [hs]
    rfl

/-- Witness of C3: "Payment Information" with `cardNumber` set to "123". -/
theorem card_number_rule_witness :
    (handleSubmit 1000 (run State.initial [Event.formTypeChange "Payment Information",
        Event.inputChange "cardNumber" "123"])).state.errors.get "cardNumber" =
      some "Card number must be 16 digits" ∧
    (handleSubmit 1000 (run State.initial [Event.formTypeChange "Payment Information",
        Event.inputChange "cardNumber" "123"])).state.submittedData = [] := by
  obtain ⟨newErrors, -, hiff, hst⟩ := card_number_rule 1000
    (run State.initial [Event.formTypeChange "Payment Information",
      Event.inputChange "cardNumber" "123"]) (by decide)
  have hfire := hiff.mpr ⟨by decide, by decide, by decide⟩
  obtain ⟨h1, h2⟩ := hst hfire
  refine ⟨?_, h2⟩
  rw [h1]
  exact hfire

/-! ## Accepted submissions -/

theorem mkEntry_get_id (data : Obj) (id : Int) (formType : String) :
    (mkEntry data id formType).get "id" = some (JSVal.num id) := by
  unfold mkEntry
  rw [Dict.get_set_ne _ _ _ _ (by decide), Dict.get_set_same]

theorem mkEntry_get_formType (data : Obj) (id : Int) (formType : String) :
    (mkEntry data id formType).get "formType" = some (JSVal.str formType) := by
  unfold mkEntry
  rw [Dict.get_set_same]

theorem mkEntry_get_other (data : Obj) (id : Int) (formType k : String)
    (h1 : k ≠ "id") (h2 : k ≠ "formType") :
    (mkEntry data id formType).get k = data.get k := by
  unfold mkEntry
  rw [Dict.get_set_ne _ _ _ _ h2, Dict.get_set_ne _ _ _ _ h1]

theorem mkEntry_of_plain (data : Obj) (id : Int) (formType : String)
    (h1 : "id" ∉ data.keys) (h2 : "formType" ∉ data.keys) :
    mkEntry data id formType =
      data ++ [("id", JSVal.num id), ("formType", JSVal.str formType)] := by
  unfold mkEntry
  rw [Dict.set_of_not_mem _ _ _ h1, Dict.set_of_not_mem]
  · simp
  · simp only [Dict.keys, List.map_append, List.mem_append, not_or]
    refine ⟨h2, ?_⟩
    simp

theorem handleSubmit_appended (now : Int) (s : State)
    (hg : editTarget s = none) (hv : validationErrors s = some []) :
    handleSubmit now s = Outcome.returned { s with
      submittedData := s.submittedData ++ [mkEntry s.formData now s.selectedFormType]
      successMessage :=
        if s.isEditing then "Form updated successfully!" else "Form submitted successfully!"
      timers := s.timers + 1 } := by
  simp [handleSubmit, hv, hg]

/-- C4: outside editing mode (the test `isEditing && editingId` fails) and
with an empty error mapping, `handleSubmit` appends exactly one entry at the
end of the store: every earlier entry keeps its index, the new entry has `id`
equal to the clock reading, `formType` equal to the selected form type and,
under every other key, the value the session holds; when the session has no
key named `id` or `formType` the entry is the session values followed by
these two keys. -/
theorem submit_appends (now : Int) (s : State)
    (hg : editTarget s = none) (hv : validationErrors s = some []) :
    handleSubmit now s = Outcome.returned { s with
      submittedData := s.submittedData ++ [mkEntry s.formData now s.selectedFormType]
      successMessage :=
        if s.isEditing then "Form updated successfully!" else "Form submitted successfully!"
      timers := s.timers + 1 } ∧
    (handleSubmit now s).state.submittedData.length = s.submittedData.length + 1 ∧
    (∀ i : Nat, i < s.submittedData.length →
      (handleSubmit now s).state.submittedData[i]? = s.submittedData[i]?) ∧
    (handleSubmit now s).state.submittedData[s.submittedData.length]? =
      some (mkEntry s.formData now s.selectedFormType) ∧
    (mkEntry s.formData now s.selectedFormType).get "id" = some (JSVal.num now) ∧
    (mkEntry s.formData now s.selectedFormType).get "formType" =
      some (JSVal.str s.selectedFormType) ∧
    (∀ k, k ≠ "id" → k ≠ "formType" →
      (mkEntry s.formData now s.selectedFormType).get k = s.formData.get k) ∧
    ("id" ∉ s.formData.keys → "formType" ∉ s.formData.keys →
      mkEntry s.formData now s.selectedFormType =
        s.formData ++ [("id", JSVal.num now), ("formType", JSVal.str s.selectedFormType)]) := by
  have hs := handleSubmit_appended now s hg hv
  refine ⟨hs, ?_, ?_, ?_, mkEntry_get_id _ _ _, mkEntry_get_formType _ _ _,
    fun k h1 h2 => mkEntry_get_other _ _ _ k h1 h2, mkEntry_of_plain _ _ _⟩
  · rw [hs]; simp [Outcome.state]
  · intro i hi
    rw [hs]
    simp only [Outcome.state]
    exact List.getElem?_append_left hi
  · rw [hs]
    simp [Outcome.state]

/-- Witness of C4: "User Information", `firstName` "Ana", `lastName` "Lee",
submitted at clock reading 1000 on the empty store. -/
theorem submit_appends_witness :
    (handleSubmit 1000 (run State.initial [Event.formTypeChange "User Information",
        Event.inputChange "firstName" "Ana",
        Event.inputChange "lastName" "Lee"])).state.submittedData =
      [[("firstName", JSVal.str "Ana"), ("lastName", JSVal.str "Lee"),
        ("id", JSVal.num 1000), ("formType", JSVal.str "User Information")]] := by
  rw [(submit_appends 1000 (run State.initial [Event.formTypeChange "User Information",
        Event.inputChange "firstName" "Ana", Event.inputChange "lastName" "Lee"])
      (by decide) (by decide)).1]
  decide

theorem editTarget_eq_some (s : State) (id : Int) (he : s.isEditing = true)
    (hid : s.editingId = some id) (h0 : id ≠ 0) : editTarget s = some id := by
  simp [editTarget, he, hid, h0]

theorem editTarget_some (s : State) (id : Int) (h : editTarget s = some id) :
    s.isEditing = true ∧ s.editingId = some id ∧ id ≠ 0 := by
  unfold editTarget at h
  split_ifs at h with he
  cases hid : s.editingId with
  | none => rw [hid] at h; simp at h
  | some n =>
    rw [hid] at h
    simp only at h
    split_ifs at h with hn
    have := Option.some.inj h
    subst this
    exact ⟨he, rfl, hn⟩

theorem handleSubmit_replaced (now id : Int) (s : State)
    (he : s.isEditing = true) (hid : s.editingId = some id) (h0 : id ≠ 0)
    (hv : validationErrors s = some []) :
    handleSubmit now s = Outcome.returned { s with
      submittedData := s.submittedData.map (fun entry =>
        if hasId id entry then mkEntry s.formData id s.selectedFormType else entry)
      isEditing := false
      editingId := none
      successMessage := "Form updated successfully!"
      timers := s.timers + 1 } := by
  have hg := editTarget_eq_some s id he hid h0
  simp [handleSubmit, hv, hg, he]

/-- C5, counterexample: an entry stored while the clock reads 0 is loaded with
`handleEdit 0` through the rendered controls; `isEditing` is true, `editingId`
is 0 and the values pass validation, yet the test `isEditing && editingId`
fails on the number 0 and `handleSubmit` appends a second entry instead of
replacing the first. -/
theorem submit_replaces_counterexample :
    enabledRun State.initial [Event.formTypeChange "User Information",
      Event.inputChange "firstName" "Ana", Event.inputChange "lastName" "Lee",
      Event.submit 0, Event.edit 0] = true ∧
    (run State.initial [Event.formTypeChange "User Information",
      Event.inputChange "firstName" "Ana", Event.inputChange "lastName" "Lee",
      Event.submit 0, Event.edit 0]).isEditing = true ∧
    (run State.initial [Event.formTypeChange "User Information",
      Event.inputChange "firstName" "Ana", Event.inputChange "lastName" "Lee",
      Event.submit 0, Event.edit 0]).editingId = some 0 ∧
    validationErrors (run State.initial [Event.formTypeChange "User Information",
      Event.inputChange "firstName" "Ana", Event.inputChange "lastName" "Lee",
      Event.submit 0, Event.edit 0]) = some [] ∧
    (run State.initial [Event.formTypeChange "User Information",
      Event.inputChange "firstName" "Ana", Event.inputChange "lastName" "Lee",
      Event.submit 0, Event.edit 0]).submittedData.length = 1 ∧
    (handleSubmit 3000 (run State.initial [Event.formTypeChange "User Information",
      Event.inputChange "firstName" "Ana", Event.inputChange "lastName" "Lee",
      Event.submit 0, Event.edit 0])).state.submittedData.length = 2 := by
  refine ⟨by decide, by decide, by decide, by decide, by decide, by decide⟩

/-- C5, amended: when `isEditing` is true and `editingId` is a non-zero number
`id` (the test `isEditing && editingId` succeeds) and the error mapping is
empty, `handleSubmit`
replaces every stored entry whose id is `id` by the session values stamped
with the same `id` and the selected form type, at the same index; the length
of the store and every entry with another id are unchanged, and editing mode
is left. -/
theorem submit_replaces (now id : Int) (s : State)
    (he : s.isEditing = true) (hid : s.editingId = some id) (h0 : id ≠ 0)
    (hv : validationErrors s = some []) :
    handleSubmit now s = Outcome.returned { s with
      submittedData := s.submittedData.map (fun entry =>
        if hasId id entry then mkEntry s.formData id s.selectedFormType else entry)
      isEditing := false
      editingId := none
      successMessage := "Form updated successfully!"
      timers := s.timers + 1 } ∧
    (handleSubmit now s).state.submittedData.length = s.submittedData.length ∧
    (∀ (i : Nat) (entry : Obj), s.submittedData[i]? = some entry →
      (handleSubmit now s).state.submittedData[i]? =
        some (if hasId id entry then mkEntry s.formData id s.selectedFormType else entry)) ∧
    hasId id (mkEntry s.formData id s.selectedFormType) = true ∧
    (mkEntry s.formData id s.selectedFormType).get "formType" =
      some (JSVal.str s.selectedFormType) ∧
    (∀ k, k ≠ "id" → k ≠ "formType" →
      (mkEntry s.formData id s.selectedFormType).get k = s.formData.get k) := by
  have hs := handleSubmit_replaced now id s he hid h0 hv
  refine ⟨hs, ?_, ?_, ?_, mkEntry_get_formType _ _ _,
    fun k h1 h2 => mkEntry_get_other _ _ _ k h1 h2⟩
  · rw [hs]; simp [Outcome.state]
  · intro i entry hi
    rw [hs]
    simp only [Outcome.state, List.getElem?_map, hi, Option.map_some']
  · simp [hasId, mkEntry_get_id]

/-- Witness of C5 (amended): a valid "User Information" entry is submitted at clock
reading 1000, loaded again with `handleEdit 1000`, its `lastName` changed to
"Lim", and submitted again: the store still has exactly one entry, with id
1000 and the new `lastName`. -/
theorem submit_replaces_witness :
    (handleSubmit 2000 (run State.initial [Event.formTypeChange "User Information",
        Event.inputChange "firstName" "Ana", Event.inputChange "lastName" "Lee",
        Event.submit 1000, Event.edit 1000,
        Event.inputChange "lastName" "Lim"])).state.submittedData =
      [[("firstName", JSVal.str "Ana"), ("lastName", JSVal.str "Lim"),
        ("id", JSVal.num 1000), ("formType", JSVal.str "User Information")]] := by
  rw [(submit_replaces 2000 1000 (run State.initial [Event.formTypeChange "User Information",
        Event.inputChange "firstName" "Ana", Event.inputChange "lastName" "Lee",
        Event.submit 1000, Event.edit 1000, Event.inputChange "lastName" "Lim"])
      (by decide) (by decide) (by decide) (by decide)).1]
  decide

/-! ## Deleting -/

/-- C8: `handleDelete id` changes only the store; it keeps, in their original
order, exactly the entries whose id is not `id`; it leaves the state as it was
when no entry has that id; and applying it twice is the same as applying it
once. -/
theorem delete_spec (id : Int) (s : State) :
    handleDelete id s =
      { s with submittedData := s.submittedData.filter (fun entry => !hasId id entry) } ∧
    (handleDelete id s).submittedData.Sublist s.submittedData ∧
    (∀ entry, entry ∈ (handleDelete id s).submittedData ↔
      entry ∈ s.submittedData ∧ hasId id entry = false) ∧
    ((∀ entry ∈ s.submittedData, hasId id entry = false) → handleDelete id s = s) ∧
    handleDelete id (handleDelete id s) = handleDelete id s := by
  refine ⟨rfl, List.filter_sublist _, ?_, ?_, ?_⟩
  · intro entry
    simp [handleDelete, List.mem_filter]
  · intro h
    have : s.submittedData.filter (fun entry => !hasId id entry) = s.submittedData := by
      rw [List.filter_eq_self]
      intro a ha
      simp [h a ha]
    simp only [handleDelete, this]
  · simp [handleDelete, List.filter_filter]

/-! ## Progress -/

theorem completedRequired_of_strValued (fs : List Field) (data : Obj)
    (hty : strValued data = true) :
    completedRequired fs data = some (fs.filter (fun f => !blankValue data f.name)) := by
  induction fs with
  | nil => rfl
  | cons f fs ih =>
    simp only [completedRequired, isFilled_of_strValued data f.name hty, ih, List.filter_cons]

theorem requiredCount_pos_of_registry (type : String) (schema : Schema)
    (h : API_RESPONSES.get type = some schema) : 0 < requiredCount schema.fields := by
  simp only [API_RESPONSES, Dict.get] at h
  split_ifs at h <;> (cases h; decide)

/-! ### Double arithmetic -/

theorem roundHalfEven_le (q : ℚ) (z : ℤ) (h : q ≤ (z : ℚ)) : roundHalfEven q ≤ z := by
  have hf : ⌊q⌋ ≤ z := by
    have := Int.floor_le q
    exact_mod_cast le_trans this h
  unfold roundHalfEven
  have hstep : 0 < q - ⌊q⌋ → ⌊q⌋ + 1 ≤ z := by
    intro hd
    have : (⌊q⌋ : ℚ) < z := by linarith
    have : ⌊q⌋ < z := by exact_mod_cast this
    omega
  split_ifs with h1 h2 h3
  · exact hf
  · exact hstep (by linarith)
  · exact hf
  · apply hstep
    have : ¬ q - ⌊q⌋ < 1 / 2 := h1
    linarith

theorem roundHalfEven_nonneg (q : ℚ) (h : 0 ≤ q) : 0 ≤ roundHalfEven q := by
  have hf : 0 ≤ ⌊q⌋ := Int.floor_nonneg.mpr h
  unfold roundHalfEven
  split_ifs <;> omega

theorem roundHalfEven_eq (q : ℚ) (m : ℤ) (h1 : (m : ℚ) - 1 / 2 < q) (h2 : q < (m : ℚ) + 1 / 2) :
    roundHalfEven q = m := by
  unfold roundHalfEven
  by_cases hm : (m : ℚ) ≤ q
  · have hfl : ⌊q⌋ = m := by
      rw [Int.floor_eq_iff]
      constructor
      · exact hm
      · linarith
    rw [hfl]
    have : q - (m : ℚ) < 1 / 2 := by linarith
    rw [if_pos this]
  · have hfl : ⌊q⌋ = m - 1 := by
      rw [Int.floor_eq_iff]
      push_cast
      constructor
      · linarith
      · linarith
    rw [hfl]
    push_cast
    have a1 : ¬ q - ((m : ℚ) - 1) < 1 / 2 := by linarith
    have a2 : 1 / 2 < q - ((m : ℚ) - 1) := by linarith
    rw [if_neg a1, if_pos a2]
    ring

theorem log2_eq (q : ℚ) (e : ℤ) (h0 : 0 < q) (h1 : (2 : ℚ) ^ e ≤ q) (h2 : q < (2 : ℚ) ^ (e + 1)) :
    Int.log 2 q = e := by
  have hb : 1 < (2 : ℕ) := by norm_num
  have a := (Int.zpow_le_iff_le_log hb h0 (x := e)).mp (by exact_mod_cast h1)
  have b := (Int.lt_zpow_iff_log_lt hb h0 (x := e + 1)).mp (by exact_mod_cast h2)
  omega

theorem toDouble_eq (q : ℚ) (e m : ℤ) (h0 : 0 < q) (h1 : (2 : ℚ) ^ e ≤ q)
    (h2 : q < (2 : ℚ) ^ (e + 1))
    (h3 : (m : ℚ) - 1 / 2 < q * (2 : ℚ) ^ (52 - e))
    (h4 : q * (2 : ℚ) ^ (52 - e) < (m : ℚ) + 1 / 2) :
    toDouble q = (m : ℚ) * (2 : ℚ) ^ (e - 52) := by
  unfold toDouble
  rw [if_neg (not_le.mpr h0), log2_eq q e h0 h1 h2, roundHalfEven_eq _ m h3 h4]

theorem toDouble_nonneg (q : ℚ) : 0 ≤ toDouble q := by
  unfold toDouble
  split_ifs with h
  · exact le_refl _
  · have hq : 0 < q := not_le.mp h
    have : 0 ≤ roundHalfEven (q * (2 : ℚ) ^ (52 - Int.log 2 q)) :=
      roundHalfEven_nonneg _ (by positivity)
    have h' : (0 : ℚ) ≤ (roundHalfEven (q * (2 : ℚ) ^ (52 - Int.log 2 q)) : ℚ) := by
      exact_mod_cast this
    positivity

theorem toDouble_le_nat (q : ℚ) (M : ℕ) (hM : M < 2 ^ 53) (h : q ≤ (M : ℚ)) :
    toDouble q ≤ (M : ℚ) := by
  unfold toDouble
  split_ifs with h0
  · exact_mod_cast Nat.zero_le M
  · have hq : 0 < q := not_le.mp h0
    have hb : 1 < (2 : ℕ) := by norm_num
    have hlog : Int.log 2 q < 53 := by
      have hlt : q < ((2 : ℕ) : ℚ) ^ (53 : ℤ) := by
        have : (M : ℚ) < (2 : ℚ) ^ (53 : ℕ) := by exact_mod_cast hM
        have h53 : ((2 : ℕ) : ℚ) ^ (53 : ℤ) = (2 : ℚ) ^ (53 : ℕ) := by norm_num
        rw [h53]
        linarith
      exact (Int.lt_zpow_iff_log_lt hb hq).mp hlt
    obtain ⟨k, hk⟩ : ∃ k : ℕ, 52 - Int.log 2 q = (k : ℤ) :=
      ⟨(52 - Int.log 2 q).toNat, (Int.toNat_of_nonneg (by omega)).symm⟩
    have hround : roundHalfEven (q * (2 : ℚ) ^ (52 - Int.log 2 q)) ≤ (M : ℤ) * 2 ^ k := by
      apply roundHalfEven_le
      rw [hk]
      push_cast
      rw [zpow_natCast]
      exact mul_le_mul_of_nonneg_right h (by positivity)
    have hcast : (roundHalfEven (q * (2 : ℚ) ^ (52 - Int.log 2 q)) : ℚ) ≤ (M : ℚ) * 2 ^ k := by
      exact_mod_cast hround
    have hinv : (2 : ℚ) ^ (Int.log 2 q - 52) = ((2 : ℚ) ^ k)⁻¹ := by
      have : Int.log 2 q - 52 = -(k : ℤ) := by omega
      rw [this, zpow_neg, zpow_natCast]
    rw [hinv]
    have hpos : (0 : ℚ) < (2 : ℚ) ^ k := by positivity
    calc (roundHalfEven (q * (2 : ℚ) ^ (52 - Int.log 2 q)) : ℚ) * ((2 : ℚ) ^ k)⁻¹
        ≤ ((M : ℚ) * 2 ^ k) * ((2 : ℚ) ^ k)⁻¹ :=
          mul_le_mul_of_nonneg_right hcast (by positivity)
      _ = (M : ℚ) := by field_simp

theorem toDouble_one : toDouble 1 = 1 := by
  rw [toDouble_eq 1 0 (2 ^ 52) (by norm_num) (by norm_num) (by norm_num) (by norm_num)
    (by norm_num)]
  norm_num

theorem toDouble_hundred : toDouble 100 = 100 := by
  rw [toDouble_eq 100 6 (25 * 2 ^ 48) (by norm_num) (by norm_num) (by norm_num) (by norm_num)
    (by norm_num)]
  norm_num

theorem toDouble_third : toDouble (1 / 3) = 6004799503160661 / 2 ^ 54 := by
  rw [toDouble_eq (1 / 3) (-2) 6004799503160661 (by norm_num) (by norm_num) (by norm_num)
    (by norm_num) (by norm_num)]
  norm_num

theorem toDouble_zero : toDouble 0 = 0 := by
  simp [toDouble]

theorem progressOf_zero (r : Nat) (hr : 0 < r) : progressOf 0 r = some 0 := by
  have : r ≠ 0 := Nat.pos_iff_ne_zero.mp hr
  simp [progressOf, this, toDouble_zero]

theorem progressOf_full (r : Nat) (hr : 0 < r) : progressOf r r = some 100 := by
  have hne : r ≠ 0 := Nat.pos_iff_ne_zero.mp hr
  have hq : ((r : ℕ) : ℚ) ≠ 0 := by exact_mod_cast hne
  simp only [progressOf, hne, if_false, Option.some.injEq]
  rw [div_self hq, toDouble_one, one_mul, toDouble_hundred]

theorem progressOf_bounds (c r : Nat) (hr : 0 < r) (hc : c ≤ r) :
    ∃ p, progressOf c r = some p ∧ 0 ≤ p ∧ p ≤ 100 := by
  have hne : r ≠ 0 := Nat.pos_iff_ne_zero.mp hr
  have hr' : (0 : ℚ) < (r : ℚ) := by exact_mod_cast hr
  have hc' : (c : ℚ) ≤ (r : ℚ) := by exact_mod_cast hc
  refine ⟨toDouble (toDouble ((c : ℚ) / (r : ℚ)) * 100),
    by simp only [progressOf, hne, if_false], toDouble_nonneg _, ?_⟩
  have h1 : toDouble ((c : ℚ) / (r : ℚ)) ≤ ((1 : ℕ) : ℚ) := by
    apply toDouble_le_nat _ 1 (by norm_num)
    rw [Nat.cast_one, div_le_one hr']
    exact hc'
  have h100 : toDouble (toDouble ((c : ℚ) / (r : ℚ)) * 100) ≤ ((100 : ℕ) : ℚ) := by
    apply toDouble_le_nat _ 100 (by norm_num)
    push_cast at h1 ⊢
    linarith
  exact_mod_cast h100

theorem progressOf_eq (c r : Nat) (d p : ℚ) (hr : r ≠ 0)
    (h1 : toDouble ((c : ℚ) / (r : ℚ)) = d) (h2 : toDouble (d * 100) = p) :
    progressOf c r = some p := by
  simp only [progressOf, hr, if_false, h1, h2]

theorem progressOf_one_two : progressOf 1 2 = some 50 := by
  apply progressOf_eq 1 2 (1 / 2) 50 (by norm_num)
  · rw [toDouble_eq _ (-1) (2 ^ 52) (by norm_num) (by norm_num) (by norm_num)
      (by norm_num) (by norm_num)]
    norm_num
  · rw [toDouble_eq _ 5 (25 * 2 ^ 48) (by norm_num) (by norm_num) (by norm_num)
      (by norm_num) (by norm_num)]
    norm_num

theorem progressOf_one_four : progressOf 1 4 = some 25 := by
  apply progressOf_eq 1 4 (1 / 4) 25 (by norm_num)
  · rw [toDouble_eq _ (-2) (2 ^ 52) (by norm_num) (by norm_num) (by norm_num)
      (by norm_num) (by norm_num)]
    norm_num
  · rw [toDouble_eq _ 4 (25 * 2 ^ 48) (by norm_num) (by norm_num) (by norm_num)
      (by norm_num) (by norm_num)]
    norm_num

theorem progressOf_two_four : progressOf 2 4 = some 50 := by
  apply progressOf_eq 2 4 (1 / 2) 50 (by norm_num)
  · rw [toDouble_eq _ (-1) (2 ^ 52) (by norm_num) (by norm_num) (by norm_num)
      (by norm_num) (by norm_num)]
    norm_num
  · rw [toDouble_eq _ 5 (25 * 2 ^ 48) (by norm_num) (by norm_num) (by norm_num)
      (by norm_num) (by norm_num)]
    norm_num

theorem progressOf_three_four : progressOf 3 4 = some 75 := by
  apply progressOf_eq 3 4 (3 / 4) 75 (by norm_num)
  · rw [toDouble_eq _ (-1) (3 * 2 ^ 51) (by norm_num) (by norm_num) (by norm_num)
      (by norm_num) (by norm_num)]
    norm_num
  · rw [toDouble_eq _ 6 (75 * 2 ^ 46) (by norm_num) (by norm_num) (by norm_num)
      (by norm_num) (by norm_num)]
    norm_num

theorem progressOf_one_three :
    progressOf 1 3 = some (4691249611844266 / 2 ^ 47) := by
  apply progressOf_eq 1 3 (6004799503160661 / 2 ^ 54) _ (by norm_num)
  · rw [toDouble_eq _ (-2) 6004799503160661 (by norm_num) (by norm_num) (by norm_num)
      (by norm_num) (by norm_num)]
    norm_num
  · rw [toDouble_eq _ 5 4691249611844266 (by norm_num) (by norm_num) (by norm_num)
      (by norm_num) (by norm_num)]
    norm_num

theorem progressOf_two_three :
    progressOf 2 3 = some (4691249611844266 / 2 ^ 46) := by
  apply progressOf_eq 2 3 (6004799503160661 / 2 ^ 53) _ (by norm_num)
  · rw [toDouble_eq _ (-1) 6004799503160661 (by norm_num) (by norm_num) (by norm_num)
      (by norm_num) (by norm_num)]
    norm_num
  · rw [toDouble_eq _ 6 4691249611844266 (by norm_num) (by norm_num) (by norm_num)
      (by norm_num) (by norm_num)]
    norm_num

theorem progressOf_thirds_inexact :
    progressOf 1 3 ≠ some (100 * 1 / 3) ∧ progressOf 2 3 ≠ some (100 * 2 / 3) := by
  rw [progressOf_one_three, progressOf_two_three]
  constructor <;> norm_num

theorem requiredCount_of_registry (type : String) (schema : Schema)
    (h : API_RESPONSES.get type = some schema) :
    requiredCount schema.fields = 2 ∨ requiredCount schema.fields = 3 ∨
      requiredCount schema.fields = 4 := by
  simp only [API_RESPONSES, Dict.get] at h
  split_ifs at h <;> (cases h; decide)

theorem progressOf_registry (c r : Nat) (hr : r = 2 ∨ r = 3 ∨ r = 4) (hc : c ≤ r) :
    ((r ≠ 3 ∨ c = 0 ∨ c = 3) → progressOf c r = some (100 * (c : ℚ) / (r : ℚ))) ∧
    (r = 3 → c = 1 → progressOf c r = some (4691249611844266 / 2 ^ 47)) ∧
    (r = 3 → c = 2 → progressOf c r = some (4691249611844266 / 2 ^ 46)) := by
  refine ⟨?_, ?_, ?_⟩
  · intro h
    rcases hr with rfl | rfl | rfl
    · interval_cases c
      · rw [progressOf_zero 2 (by norm_num)]; norm_num
      · rw [progressOf_one_two]; norm_num
      · rw [progressOf_full 2 (by norm_num)]; norm_num
    · rcases h with h | rfl | rfl
      · exact absurd rfl h
      · rw [progressOf_zero 3 (by norm_num)]; norm_num
      · rw [progressOf_full 3 (by norm_num)]; norm_num
    · interval_cases c
      · rw [progressOf_zero 4 (by norm_num)]; norm_num
      · rw [progressOf_one_four]; norm_num
      · rw [progressOf_two_four]; norm_num
      · rw [progressOf_three_four]; norm_num
      · rw [progressOf_full 4 (by norm_num)]; norm_num
  · rintro rfl rfl
    exact progressOf_one_three
  · rintro rfl rfl
    exact progressOf_two_three

theorem handleInputChange_of_strValued (name value : String) (s : State)
    (hty : strValued s.formData = true) :
    handleInputChange name value s = Outcome.returned { s with
      formData := s.formData.set name (JSVal.str value)
      progress := progressOf
        (filledRequired s.formFields (s.formData.set name (JSVal.str value)))
        (requiredCount s.formFields)
      errors := s.errors.del name } := by
  have hty' := strValued_set s.formData name value hty
  simp only [handleInputChange, completedRequired_of_strValued _ _ hty']
  rfl

/-- C9, counterexample: on the "Address Information" form with `street` filled
and the two other required fields empty, `handleInputChange` stores the double
`(1 / 3) * 100`, which is `4691249611844266 / 2^47` (printed
33.33333333333333) and not the quotient `100 * 1 / 3`. -/
theorem input_progress_counterexample :
    filledRequired (fieldsOrEmpty "Address Information")
      [("street", JSVal.str "1 Main St")] = 1 ∧
    requiredCount (fieldsOrEmpty "Address Information") = 3 ∧
    (handleInputChange "street" "1 Main St"
      (handleFormTypeChange "Address Information" State.initial)).state.progress =
        some (4691249611844266 / 2 ^ 47) ∧
    (handleInputChange "street" "1 Main St"
      (handleFormTypeChange "Address Information" State.initial)).state.progress ≠
        some (100 * 1 / 3) := by
  have h1 : filledRequired (fieldsOrEmpty "Address Information")
      [("street", JSVal.str "1 Main St")] = 1 := by decide
  have h3 : requiredCount (fieldsOrEmpty "Address Information") = 3 := by decide
  have hp : (handleInputChange "street" "1 Main St"
      (handleFormTypeChange "Address Information" State.initial)).state.progress =
        some (4691249611844266 / 2 ^ 47) := by
    rw [handleInputChange_of_strValued _ _ _ (by decide)]
    show progressOf (filledRequired (fieldsOrEmpty "Address Information")
      [("street", JSVal.str "1 Main St")])
      (requiredCount (fieldsOrEmpty "Address Information")) = _
    rw [h1, h3]
    exact progressOf_one_three
  refine ⟨h1, h3, hp, ?_⟩
  rw [hp]
  norm_num

/-- C9, amended: when the field list is a schema of the table and the values
are strings, `handleInputChange name value` returns with the value written and
with `progress` equal to `(c / r) * 100` computed in double arithmetic, where
`c` is the number of required fields that are not blank in the updated values
and `r` the number of required fields; the result lies between 0 and 100; it
is 100 when no required field is blank in the updated values; it is the exact
quotient `100 * c / r` unless 1 or 2 of 3 required fields are filled, where it
is `4691249611844266 / 2^47` and `4691249611844266 / 2^46` (printed
33.33333333333333 and 66.66666666666666). -/
theorem input_progress (name value : String) (s : State)
    (hty : strValued s.formData = true)
    (hreg : ∃ type schema, API_RESPONSES.get type = some schema ∧ s.formFields = schema.fields) :
    ∃ s', handleInputChange name value s = Outcome.returned s' ∧
      s'.formData = s.formData.set name (JSVal.str value) ∧
      s'.progress = progressOf (filledRequired s.formFields s'.formData)
        (requiredCount s.formFields) ∧
      (∃ p, s'.progress = some p ∧ 0 ≤ p ∧ p ≤ 100) ∧
      ((∀ f ∈ s.formFields, f.required = true → blankValue s'.formData f.name = false) →
        s'.progress = some 100) ∧
      ((requiredCount s.formFields ≠ 3 ∨ filledRequired s.formFields s'.formData = 0 ∨
          filledRequired s.formFields s'.formData = 3) →
        s'.progress = some (100 * (filledRequired s.formFields s'.formData : ℚ) /
          (requiredCount s.formFields : ℚ))) ∧
      (requiredCount s.formFields = 3 → filledRequired s.formFields s'.formData = 1 →
        s'.progress = some (4691249611844266 / 2 ^ 47)) ∧
      (requiredCount s.formFields = 3 → filledRequired s.formFields s'.formData = 2 →
        s'.progress = some (4691249611844266 / 2 ^ 46)) := by
  obtain ⟨type, schema, hget, hfields⟩ := hreg
  have hpos : 0 < requiredCount s.formFields := by
    rw [hfields]; exact requiredCount_pos_of_registry type schema hget
  have hreg3 : requiredCount s.formFields = 2 ∨ requiredCount s.formFields = 3 ∨
      requiredCount s.formFields = 4 := by
    rw [hfields]; exact requiredCount_of_registry type schema hget
  have hle : filledRequired s.formFields (s.formData.set name (JSVal.str value)) ≤
      requiredCount s.formFields := List.length_filter_le _ _
  obtain ⟨t1, t2, t3⟩ := progressOf_registry _ _ hreg3 hle
  refine ⟨_, handleInputChange_of_strValued name value s hty, rfl, rfl,
    progressOf_bounds _ _ hpos hle, ?_, t1, t2, t3⟩
  intro hall
  have hfull : filledRequired s.formFields (s.formData.set name (JSVal.str value)) =
      requiredCount s.formFields := by
    unfold filledRequired requiredCount
    rw [List.filter_eq_self.mpr]
    intro f hf
    have hf' := List.mem_filter.mp hf
    have hreq : f.required = true := by simpa using hf'.2
    simp [hall f hf'.1 hreq]
  show progressOf _ _ = some 100
  rw [hfull]
  exact progressOf_full _ hpos

/-- Witness of C9 (amended): "User Information" with `firstName` "Ana", at the
moment `lastName` is set to "Lee". -/
theorem input_progress_witness :
    (handleInputChange "lastName" "Lee" (run State.initial
      [Event.formTypeChange "User Information",
       Event.inputChange "firstName" "Ana"])).state.progress = some 100 := by
  obtain ⟨s', h1, h2, -, -, h5, -, -, -⟩ := input_progress "lastName" "Lee"
    (run State.initial [Event.formTypeChange "User Information",
      Event.inputChange "firstName" "Ana"])
    (by decide)
    ⟨"User Information", Schema.mk (fieldsOrEmpty "User Information"), by decide, by decide⟩
  rw [h1]
  apply h5
  rw [h2]
  decide

/-! ## Changing the form type -/

theorem handleFormTypeChange_spec (type : String) (s : State) :
    (handleFormTypeChange type s).selectedFormType = type ∧
    (handleFormTypeChange type s).formFields = fieldsOrEmpty type ∧
    (handleFormTypeChange type s).formData = [] ∧
    (handleFormTypeChange type s).errors = [] ∧
    (handleFormTypeChange type s).progress = some 0 ∧
    (handleFormTypeChange type s).submittedData = s.submittedData ∧
    (handleFormTypeChange type s).isEditing = s.isEditing ∧
    (handleFormTypeChange type s).editingId = s.editingId :=
  ⟨rfl, rfl, rfl, rfl, rfl, rfl, rfl, rfl⟩

/-- C10, the code at the failing input: after an entry stamped 1000 is loaded
with `handleEdit`, `handleFormTypeChange "Payment Information"` leaves
`isEditing` true and `editingId` 1000; filling the payment form and submitting
then overwrites the stored "User Information" entry. -/
theorem formTypeChange_keeps_editing :
    (handleFormTypeChange "Payment Information" (run State.initial
      [Event.formTypeChange "User Information", Event.inputChange "firstName" "Ana",
       Event.inputChange "lastName" "Lee", Event.submit 1000, Event.timeout,
       Event.edit 1000])).isEditing = true ∧
    (handleFormTypeChange "Payment Information" (run State.initial
      [Event.formTypeChange "User Information", Event.inputChange "firstName" "Ana",
       Event.inputChange "lastName" "Lee", Event.submit 1000, Event.timeout,
       Event.edit 1000])).editingId = some 1000 ∧
    (run State.initial
      [Event.formTypeChange "User Information", Event.inputChange "firstName" "Ana",
       Event.inputChange "lastName" "Lee", Event.submit 1000, Event.timeout,
       Event.edit 1000, Event.formTypeChange "Payment Information",
       Event.inputChange "cardNumber" "1234567812345678",
       Event.inputChange "expiryDate" "2030-01-01", Event.inputChange "cvv" "123",
       Event.inputChange "cardholderName" "Ana Lee", Event.submit 5000]).submittedData =
      [[("cardNumber", JSVal.str "1234567812345678"),
        ("expiryDate", JSVal.str "2030-01-01"), ("cvv", JSVal.str "123"),
        ("cardholderName", JSVal.str "Ana Lee"), ("id", JSVal.num 1000),
        ("formType", JSVal.str "Payment Information")]] := by
  refine ⟨by decide, by decide, by decide⟩

/-! ## Ids under an increasing clock -/

theorem storeIds_replace (store : List Obj) (data : Obj) (id : Int) (formType : String) :
    storeIds (store.map (fun entry =>
      if hasId id entry then mkEntry data id formType else entry)) = storeIds store := by
  unfold storeIds
  rw [List.map_map]
  apply List.map_congr_left
  intro entry _
  simp only [Function.comp]
  by_cases h : hasId id entry = true
  · rw [if_pos h, mkEntry_get_id]
    unfold hasId at h
    simp only [decide_eq_true_eq] at h
    exact h.symm
  · rw [if_neg h]

theorem handleEdit_store (id : Int) (s : State) :
    (handleEdit id s).state.submittedData = s.submittedData := by
  unfold handleEdit
  split
  · rfl
  · split
    · split
      · split <;> rfl
      · simp only
        split <;> rfl
    · rfl

theorem handleInputChange_store (name value : String) (s : State) :
    (handleInputChange name value s).state.submittedData = s.submittedData := by
  unfold handleInputChange
  simp only
  split <;> rfl

/-- The store after `handleSubmit`: unchanged, or with the entries of one id
replaced by an entry of the same id, or with one entry stamped `now`
appended. -/
theorem handleSubmit_store (now : Int) (s : State) :
    (handleSubmit now s).state.submittedData = s.submittedData ∨
    (∃ id, (handleSubmit now s).state.submittedData =
      s.submittedData.map (fun entry =>
        if hasId id entry then mkEntry s.formData id s.selectedFormType else entry)) ∨
    (handleSubmit now s).state.submittedData =
      s.submittedData ++ [mkEntry s.formData now s.selectedFormType] := by
  unfold handleSubmit
  split
  · exact Or.inl rfl
  · split
    · exact Or.inl rfl
    · simp only
      split
      · rename_i editingId _
        exact Or.inr (Or.inl ⟨editingId, rfl⟩)
      · exact Or.inr (Or.inr rfl)


theorem Stamped.mono_clock {c c' : Int} {store : List Obj} (h : Stamped c store) (hc : c ≤ c') :
    Stamped c' store :=
  ⟨fun entry he => by
    obtain ⟨n, h1, h2⟩ := h.1 entry he
    exact ⟨n, h1, le_trans h2 hc⟩, h.2⟩

theorem Stamped.replace {c : Int} {store : List Obj} (h : Stamped c store)
    (data : Obj) (id : Int) (formType : String) :
    Stamped c (store.map (fun entry =>
      if hasId id entry then mkEntry data id formType else entry)) := by
  refine ⟨?_, ?_⟩
  · intro entry he
    obtain ⟨old, hold, rfl⟩ := List.mem_map.mp he
    obtain ⟨n, h1, h2⟩ := h.1 old hold
    by_cases hh : hasId id old = true
    · rw [if_pos hh, mkEntry_get_id]
      unfold hasId at hh
      simp only [decide_eq_true_eq] at hh
      rw [h1] at hh
      exact ⟨n, hh.symm, h2⟩
    · rw [if_neg hh]
      exact ⟨n, h1, h2⟩
  · rw [storeIds_replace]
    exact h.2

theorem Stamped.append {c now : Int} {store : List Obj} (h : Stamped c store) (hc : c < now)
    (data : Obj) (formType : String) :
    Stamped now (store ++ [mkEntry data now formType]) := by
  refine ⟨?_, ?_⟩
  · intro entry he
    rcases List.mem_append.mp he with he | he
    · obtain ⟨n, h1, h2⟩ := h.1 entry he
      exact ⟨n, h1, le_of_lt (lt_of_le_of_lt h2 hc)⟩
    · rw [List.mem_singleton.mp he]
      exact ⟨now, mkEntry_get_id _ _ _, le_refl _⟩
  · unfold storeIds
    rw [List.map_append, List.map_singleton, mkEntry_get_id]
    apply List.Nodup.append h.2 (List.nodup_singleton _)
    intro x hx hx'
    rw [List.mem_singleton] at hx'
    subst hx'
    obtain ⟨entry, he, hget⟩ := List.mem_map.mp hx
    obtain ⟨n, h1, h2⟩ := h.1 entry he
    rw [h1] at hget
    have : n = now := by
      injection hget with h3
      injection h3
    omega

theorem Stamped.filter {c : Int} {store : List Obj} (h : Stamped c store)
    (p : Obj → Bool) : Stamped c (store.filter p) :=
  ⟨fun entry he => h.1 entry (List.mem_filter.mp he).1,
    List.Nodup.sublist (List.Sublist.map _ (List.filter_sublist _)) h.2⟩

theorem handleSubmit_stamped (c now : Int) (s : State) (h : Stamped c s.submittedData)
    (hc : c < now) : Stamped now (handleSubmit now s).state.submittedData := by
  rcases handleSubmit_store now s with e | ⟨id, e⟩ | e
  · rw [e]; exact h.mono_clock (le_of_lt hc)
  · rw [e]; exact (h.replace _ _ _).mono_clock (le_of_lt hc)
  · rw [e]; exact h.append hc _ _

theorem run_stamped (evs : List Event) (c : Int) (s : State)
    (h : Stamped c s.submittedData) (hc : clockIncreasing c evs = true) :
    ∃ c', Stamped c' (run s evs).submittedData := by
  induction evs generalizing c s with
  | nil => exact ⟨c, h⟩
  | cons e es ih =>
    cases e with
    | formTypeChange type => exact ih c _ h hc
    | inputChange name value =>
      refine ih c _ ?_ hc
      show Stamped c (handleInputChange name value s).state.submittedData
      rw [handleInputChange_store]; exact h
    | submit now =>
      simp only [clockIncreasing, Bool.and_eq_true, decide_eq_true_eq] at hc
      exact ih now _ (handleSubmit_stamped c now s h hc.1) hc.2
    | edit id =>
      refine ih c _ ?_ hc
      show Stamped c (handleEdit id s).state.submittedData
      rw [handleEdit_store]; exact h
    | delete id => exact ih c _ (h.filter _) hc
    | timeout => exact ih c _ h hc

/-- C7, counterexample: two submits of a filled "User Information" form read
the same clock value 1000 and store two entries with the same id. -/
theorem unique_ids_counterexample :
    ¬ (storeIds (run State.initial [Event.formTypeChange "User Information",
        Event.inputChange "firstName" "Ana", Event.inputChange "lastName" "Lee",
        Event.submit 1000, Event.inputChange "firstName" "Bob",
        Event.submit 1000]).submittedData).Nodup := by
  decide

/-- C7, amended: starting from an empty store, after any sequence of handler
calls and timer resets in which every submit reads a clock value strictly
greater than the previous submit, no two stored entries have the same id. -/
theorem unique_ids (evs : List Event) (c : Int) (s : State)
    (hempty : s.submittedData = []) (hclock : clockIncreasing c evs = true) :
    (storeIds (run s evs).submittedData).Nodup := by
  have h0 : Stamped c s.submittedData := by
    rw [hempty]
    exact ⟨fun _ h => absurd h (List.not_mem_nil _), List.nodup_nil⟩
  obtain ⟨c', h⟩ := run_stamped evs c s h0 hclock
  exact h.2

/-- Witness of C7 (amended): two entries submitted at readings 1000 and 2000,
the first edited and resubmitted at 3000, the second deleted. -/
theorem unique_ids_witness :
    (storeIds (run State.initial [Event.formTypeChange "User Information",
        Event.inputChange "firstName" "Ana", Event.inputChange "lastName" "Lee",
        Event.submit 1000, Event.inputChange "firstName" "Bob", Event.submit 2000,
        Event.edit 1000, Event.inputChange "lastName" "Lim", Event.submit 3000,
        Event.delete 2000]).submittedData).Nodup ∧
    storeIds (run State.initial [Event.formTypeChange "User Information",
        Event.inputChange "firstName" "Ana", Event.inputChange "lastName" "Lee",
        Event.submit 1000, Event.inputChange "firstName" "Bob", Event.submit 2000,
        Event.edit 1000, Event.inputChange "lastName" "Lim", Event.submit 3000,
        Event.delete 2000]).submittedData = [some (JSVal.num 1000)] :=
  ⟨unique_ids _ 0 State.initial rfl (by decide), by decide⟩

/-! ## The invariant of the rendered form -/

theorem registry_get_of_mem (type : String) (h : type ∈ API_RESPONSES.keys) :
    ∃ schema, API_RESPONSES.get type = some schema ∧ fieldsOrEmpty type = schema.fields := by
  have h' : type = "User Information" ∨ type = "Address Information" ∨
      type = "Payment Information" := by
    simpa [API_RESPONSES, Dict.keys] using h
  rcases h' with rfl | rfl | rfl
  · exact ⟨_, rfl, rfl⟩
  · exact ⟨_, rfl, rfl⟩
  · exact ⟨_, rfl, rfl⟩

theorem registry_mem_of_get (type : String) (schema : Schema)
    (h : API_RESPONSES.get type = some schema) :
    type ∈ API_RESPONSES.keys ∧ fieldsOrEmpty type = schema.fields := by
  refine ⟨?_, by simp only [fieldsOrEmpty, h]⟩
  simp only [API_RESPONSES, Dict.get] at h
  split_ifs at h with h1 h2 h3
  · rw [← h1]; decide
  · rw [← h2]; decide
  · rw [← h3]; decide

theorem registry_field_names (type : String) (f : Field) (hf : f ∈ fieldsOrEmpty type) :
    f.name ≠ "id" ∧ f.name ≠ "formType" := by
  unfold fieldsOrEmpty at hf
  cases h : API_RESPONSES.get type with
  | none => rw [h] at hf; exact absurd hf (List.not_mem_nil _)
  | some schema =>
    rw [h] at hf
    simp only [API_RESPONSES, Dict.get] at h
    split_ifs at h <;>
      (cases h
       simp only [List.mem_cons, List.mem_singleton, List.not_mem_nil, or_false] at hf
       rcases hf with rfl | rfl | rfl | rfl <;> exact ⟨by decide, by decide⟩)

theorem Dict.mem_keys_set {α : Type} (o : Dict α) (k k' : String) (v : α)
    (h : k' ∈ (o.set k v).keys) : k' = k ∨ k' ∈ o.keys := by
  induction o with
  | nil =>
    simp only [Dict.set, Dict.keys, List.map_cons, List.map_nil, List.mem_singleton] at h
    exact Or.inl h
  | cons p o ih =>
    obtain ⟨k0, v0⟩ := p
    by_cases h0 : k0 = k
    · simp only [Dict.set, h0, if_true, Dict.keys, List.map_cons, List.mem_cons] at h ⊢
      rcases h with h | h
      · exact Or.inl h
      · exact Or.inr (Or.inr h)
    · simp only [Dict.set, h0, if_false, Dict.keys, List.map_cons, List.mem_cons] at h ⊢
      rcases h with h | h
      · exact Or.inr (Or.inl h)
      · rcases ih h with h | h
        · exact Or.inl h
        · exact Or.inr (Or.inr h)

theorem plainData_iff (data : Obj) :
    plainData data = true ↔
      strValued data = true ∧ "id" ∉ data.keys ∧ "formType" ∉ data.keys := by
  simp [plainData, and_assoc]

theorem plainData_set (data : Obj) (name value : String) (h : plainData data = true)
    (h1 : name ≠ "id") (h2 : name ≠ "formType") :
    plainData (data.set name (JSVal.str value)) = true := by
  rw [plainData_iff] at h ⊢
  refine ⟨strValued_set _ _ _ h.1, ?_, ?_⟩
  · intro hm
    rcases Dict.mem_keys_set _ _ _ _ hm with e | e
    · exact h1 e.symm
    · exact h.2.1 e
  · intro hm
    rcases Dict.mem_keys_set _ _ _ _ hm with e | e
    · exact h2 e.symm
    · exact h.2.2 e

theorem GoodEntry.mono_bound {c c' : Int} {entry : Obj} (h : GoodEntry c entry) (hc : c ≤ c') :
    GoodEntry c' entry := by
  obtain ⟨data, n, formType, schema, h1, h2, h3, h4, h5, h6, h7⟩ := h
  exact ⟨data, n, formType, schema, h1, h2, h3, h4, h5, h6, le_trans h7 hc⟩

theorem GoodEntry.get_id {c : Int} {entry : Obj} (h : GoodEntry c entry) :
    ∃ n, entry.get "id" = some (JSVal.num n) ∧ 0 < n ∧ n ≤ c := by
  obtain ⟨data, n, formType, schema, h1, h2, -, -, -, h6, h7⟩ := h
  refine ⟨n, ?_, h6, h7⟩
  rw [h1, Dict.get_append_of_not_mem _ _ _ ((plainData_iff data).mp h2).2.1]
  rfl

theorem Inv.mono_inv {c c' : Int} {s : State} (h : Inv c s) (hc : c ≤ c') : Inv c' s := by
  obtain ⟨h1, h2, h3, h4, h5, h6⟩ := h
  exact ⟨h1, h2, h3, h4, fun entry he => (h5 entry he).mono_bound hc, h6⟩

theorem Inv.stamped {c : Int} {s : State} (h : Inv c s) : Stamped c s.submittedData :=
  ⟨fun entry he => by
    obtain ⟨n, h1, -, h3⟩ := (h.2.2.2.2.1 entry he).get_id
    exact ⟨n, h1, h3⟩, h.2.2.2.2.2⟩

theorem Inv.initial : Inv 0 State.initial :=
  ⟨rfl, Or.inl rfl, rfl, rfl, fun _ h => absurd h (List.not_mem_nil _), List.nodup_nil⟩

theorem Inv.formTypeChange {c : Int} {s : State} (h : Inv c s) (type : String)
    (hen : enabled s (Event.formTypeChange type) = true) :
    Inv c (handleFormTypeChange type s) := by
  obtain ⟨-, -, -, h4, h5, h6⟩ := h
  simp only [enabled, decide_eq_true_eq] at hen
  exact ⟨rfl, Or.inr hen, rfl, h4, h5, h6⟩

theorem Inv.timeout {c : Int} {s : State} (h : Inv c s) : Inv c (resetCallback s) := by
  obtain ⟨-, -, -, h4, h5, h6⟩ := h
  exact ⟨rfl, Or.inl rfl, rfl, h4, h5, h6⟩

theorem Inv.delete {c : Int} {s : State} (h : Inv c s) (id : Int) :
    Inv c (handleDelete id s) := by
  obtain ⟨h1, h2, h3, h4, h5, h6⟩ := h
  refine ⟨h1, h2, h3, h4, ?_, ?_⟩
  · intro entry he
    exact h5 entry (List.mem_filter.mp he).1
  · exact List.Nodup.sublist (List.Sublist.map _ (List.filter_sublist _)) h6

theorem Inv.inputChange {c : Int} {s : State} (h : Inv c s) (name value : String)
    (hen : enabled s (Event.inputChange name value) = true) :
    Inv c (handleInputChange name value s).state := by
  obtain ⟨h1, h2, h3, h4, h5, h6⟩ := h
  simp only [enabled, Bool.and_eq_true, decide_eq_true_eq] at hen
  obtain ⟨f, hf, hname⟩ := List.mem_map.mp hen.2
  rw [h1] at hf
  have hn := registry_field_names _ f hf
  rw [hname] at hn
  have hty' := strValued_set s.formData name value ((plainData_iff _).mp h3).1
  have hs : handleInputChange name value s = Outcome.returned { s with
      formData := s.formData.set name (JSVal.str value)
      progress := progressOf
        (filledRequired s.formFields (s.formData.set name (JSVal.str value)))
        (requiredCount s.formFields)
      errors := s.errors.del name } := by
    simp only [handleInputChange, completedRequired_of_strValued _ _ hty']
    rfl
  rw [hs]
  exact ⟨h1, h2, plainData_set _ _ _ h3 hn.1 hn.2, h4, h5, h6⟩

theorem validation_passed (s : State) (hty : strValued s.formData = true)
    (hv : validationErrors s = some []) :
    requiredErrors s.formFields s.formData [] = some [] ∧
    cardRule s.selectedFormType s.formData [] = [] := by
  obtain ⟨errs0, he, hv', -⟩ := validationErrors_of_strValued s hty
  rw [hv] at hv'
  have hv2 := Option.some.inj hv'
  by_cases hc : s.selectedFormType = "Payment Information" ∧
      nonEmptyValue s.formData "cardNumber" = true ∧
      sixteenDigits s.formData "cardNumber" = false
  · rw [if_pos hc] at hv2
    exact absurd hv2.symm (Dict.set_ne_nil _ _ _)
  · rw [if_neg hc] at hv2
    refine ⟨by rw [he, ← hv2], ?_⟩
    rw [cardRule_of_strValued _ _ _ hty, if_neg hc]

theorem validationErrors_of_passed (s : State)
    (h1 : requiredErrors s.formFields s.formData [] = some [])
    (h2 : cardRule s.selectedFormType s.formData [] = []) :
    validationErrors s = some [] := by
  simp only [validationErrors, h1, Option.map_some', h2]

theorem goodEntry_mkEntry (c id : Int) (s : State) (schema : Schema)
    (hplain : plainData s.formData = true)
    (hget : API_RESPONSES.get s.selectedFormType = some schema)
    (hfields : s.formFields = schema.fields)
    (hv : validationErrors s = some []) (h0 : 0 < id) (hc : id ≤ c) :
    GoodEntry c (mkEntry s.formData id s.selectedFormType) := by
  have hp := (plainData_iff _).mp hplain
  obtain ⟨hr, hcard⟩ := validation_passed s hp.1 hv
  rw [hfields] at hr
  exact ⟨s.formData, id, s.selectedFormType, schema,
    mkEntry_of_plain _ _ _ hp.2.1 hp.2.2, hplain, hget, hr, hcard, h0, hc⟩

theorem Inv.submit {c : Int} {s : State} (h : Inv c s) (now : Int)
    (hen : enabled s (Event.submit now) = true) (h0 : 0 ≤ c) (hc : c < now) :
    Inv now (handleSubmit now s).state := by
  have hst := h.stamped
  obtain ⟨h1, h2, h3, h4, h5, h6⟩ := h
  have hty := ((plainData_iff _).mp h3).1
  simp only [enabled, Bool.and_eq_true, decide_eq_true_eq] at hen
  obtain ⟨errs0, -, hv, -⟩ := validationErrors_of_strValued s hty
  have hold : ∀ entry ∈ s.submittedData, GoodEntry now entry :=
    fun entry he => (h5 entry he).mono_bound (le_of_lt hc)
  by_cases hne : (if s.selectedFormType = "Payment Information" ∧
            nonEmptyValue s.formData "cardNumber" = true ∧
            sixteenDigits s.formData "cardNumber" = false
         then errs0.set "cardNumber" "Card number must be 16 digits" else errs0) = []
  · rw [hne] at hv
    have hkey : s.selectedFormType ∈ API_RESPONSES.keys := by
      rcases h2 with e | e
      · exact absurd e hen.1
      · exact e
    obtain ⟨schema, hget, hf⟩ := registry_get_of_mem _ hkey
    have hfields : s.formFields = schema.fields := by rw [h1, hf]
    cases hg : editTarget s with
    | some id =>
        obtain ⟨het, hid, hz⟩ := editTarget_some s id hg
        rw [handleSubmit_replaced now id s het hid hz hv]
        refine ⟨h1, h2, h3, h4, ?_, ?_⟩
        · intro entry he
          obtain ⟨old, hmem, rfl⟩ := List.mem_map.mp he
          by_cases hh : hasId id old = true
          · rw [if_pos hh]
            obtain ⟨n, hn, hpos, hle⟩ := (h5 old hmem).get_id
            unfold hasId at hh
            simp only [decide_eq_true_eq] at hh
            rw [hn] at hh
            have hnid : n = id := by
              injection hh with h3
              injection h3
            subst hnid
            exact goodEntry_mkEntry now n s schema h3 hget hfields hv hpos
              (le_trans hle (le_of_lt hc))
          · rw [if_neg hh]
            exact hold old hmem
        · show (storeIds (s.submittedData.map _)).Nodup
          rw [storeIds_replace]
          exact h6
    | none =>
      rw [handleSubmit_appended now s hg hv]
      refine ⟨h1, h2, h3, h4, ?_, (hst.append hc _ _).2⟩
      intro entry he
      rcases List.mem_append.mp he with he | he
      · exact hold entry he
      · rw [List.mem_singleton.mp he]
        exact goodEntry_mkEntry now now s schema h3 hget hfields hv (lt_of_le_of_lt h0 hc)
          (le_refl _)
  · rw [handleSubmit_rejected now s _ hv hne]
    exact ⟨h1, h2, h3, h4, hold, h6⟩

theorem handleEdit_of_find (id n : Int) (s : State) (entry data : Obj)
    (formType : String) (schema : Schema)
    (hfind : s.submittedData.find? (hasId id) = some entry)
    (hentry : entry = data ++ [("id", JSVal.num n), ("formType", JSVal.str formType)])
    (hplain : plainData data = true)
    (hget : API_RESPONSES.get formType = some schema) :
    handleEdit id s = Outcome.returned { s with
      selectedFormType := formType
      formFields := schema.fields
      formData := data
      isEditing := true
      editingId := some id
      progress := progressOf (filledRequired schema.fields data)
        (requiredCount schema.fields) } := by
  have hp := (plainData_iff _).mp hplain
  have hft : entry.get "formType" = some (JSVal.str formType) := by
    rw [hentry, Dict.get_append_of_not_mem _ _ _ hp.2.2]
    rfl
  have hdel : (entry.del "id").del "formType" = data := by
    rw [hentry, Dict.del_append, Dict.del_of_not_mem _ _ hp.2.1, Dict.del_append,
      Dict.del_of_not_mem _ _ hp.2.2]
    simp [Dict.del]
  simp only [handleEdit, hfind, hft, hget, hdel, completedRequired_of_strValued _ _ hp.1]
  rfl

theorem find_of_any (store : List Obj) (id : Int) (h : store.any (hasId id) = true) :
    ∃ entry, store.find? (hasId id) = some entry ∧ entry ∈ store ∧ hasId id entry = true := by
  cases hf : store.find? (hasId id) with
  | none =>
    rw [List.find?_eq_none] at hf
    obtain ⟨x, hx, hx'⟩ := List.any_eq_true.mp h
    exact absurd hx' (hf x hx)
  | some entry =>
    exact ⟨entry, rfl, List.mem_of_find?_eq_some hf, List.find?_some hf⟩

theorem Inv.edit {c : Int} {s : State} (h : Inv c s) (id : Int)
    (hen : enabled s (Event.edit id) = true) : Inv c (handleEdit id s).state := by
  obtain ⟨h1, h2, h3, h4, h5, h6⟩ := h
  simp only [enabled] at hen
  obtain ⟨entry, hfind, hmem, -⟩ := find_of_any _ _ hen
  obtain ⟨data, n, formType, schema, e1, e2, e3, -, -, -, -⟩ := h5 entry hmem
  rw [handleEdit_of_find id n s entry data formType schema hfind e1 e2 e3]
  obtain ⟨hk, hf⟩ := registry_mem_of_get _ _ e3
  exact ⟨hf.symm, Or.inr hk, e2, h4, h5, h6⟩

theorem run_inv (evs : List Event) (c : Int) (s : State) (h : Inv c s) (h0 : 0 ≤ c)
    (hen : enabledRun s evs = true) (hclock : clockIncreasing c evs = true) :
    ∃ c', 0 ≤ c' ∧ Inv c' (run s evs) := by
  induction evs generalizing c s with
  | nil => exact ⟨c, h0, h⟩
  | cons e es ih =>
    simp only [enabledRun, Bool.and_eq_true] at hen
    cases e with
    | formTypeChange type => exact ih c _ (h.formTypeChange type hen.1) h0 hen.2 hclock
    | inputChange name value => exact ih c _ (h.inputChange name value hen.1) h0 hen.2 hclock
    | submit now =>
      simp only [clockIncreasing, Bool.and_eq_true, decide_eq_true_eq] at hclock
      exact ih now _ (h.submit now hen.1 h0 hclock.1) (le_of_lt (lt_of_le_of_lt h0 hclock.1))
        hen.2 hclock.2
    | edit id => exact ih c _ (h.edit id hen.1) h0 hen.2 hclock
    | delete id => exact ih c _ (h.delete id) h0 hen.2 hclock
    | timeout => exact ih c _ h.timeout h0 hen.2 hclock

theorem edit_submit_of_inv (c : Int) (s : State) (h : Inv c s) (entry : Obj)
    (hmem : entry ∈ s.submittedData) :
    ∃ id, entry.get "id" = some (JSVal.num id) ∧
      ∃ s1, handleEdit id s = Outcome.returned s1 ∧
        ∀ now, ∃ s2, handleSubmit now s1 = Outcome.returned s2 ∧
          s2.submittedData = s.submittedData ∧
          s2.successMessage = "Form updated successfully!" := by
  obtain ⟨-, -, -, -, h5, h6⟩ := h
  have hgood := h5 entry hmem
  obtain ⟨id, hid, hpos, -⟩ := hgood.get_id
  obtain ⟨data, n, formType, schema, e1, e2, e3, e4, e5, -, -⟩ := hgood
  have hn : n = id := by
    have : entry.get "id" = some (JSVal.num n) := by
      rw [e1, Dict.get_append_of_not_mem _ _ _ ((plainData_iff data).mp e2).2.1]
      rfl
    rw [hid] at this
    injection this with h3
    injection h3 with h4
    exact h4.symm
  subst hn
  have hhas : hasId n entry = true := by simp [hasId, hid]
  have hsame : ∀ x ∈ s.submittedData, hasId n x = true → x = entry := by
    intro x hx hx'
    unfold hasId at hx'
    simp only [decide_eq_true_eq] at hx'
    exact List.inj_on_of_nodup_map h6 hx hmem (by rw [hx', hid])
  obtain ⟨found, hfind, hfmem, hfhas⟩ :=
    find_of_any s.submittedData n (List.any_eq_true.mpr ⟨entry, hmem, hhas⟩)
  have hfe := hsame found hfmem hfhas
  subst hfe
  refine ⟨n, hid, _, handleEdit_of_find n n s found data formType schema hfind e1 e2 e3, ?_⟩
  intro now
  have hp := (plainData_iff data).mp e2
  have hv := validationErrors_of_passed
    { s with
      selectedFormType := formType
      formFields := schema.fields
      formData := data
      isEditing := true
      editingId := some n
      progress := progressOf (filledRequired schema.fields data)
        (requiredCount schema.fields) } e4 e5
  refine ⟨_, handleSubmit_replaced now n _ rfl rfl (ne_of_gt hpos) hv, ?_, rfl⟩
  show s.submittedData.map _ = s.submittedData
  have hmk : mkEntry data n formType = found := by
    rw [e1]; exact mkEntry_of_plain _ _ _ hp.2.1 hp.2.2
  conv_rhs => rw [← List.map_id s.submittedData]
  apply List.map_congr_left
  intro x hx
  by_cases hh : hasId n x = true
  · simp only [hh, if_true, id]
    rw [hmk]
    exact (hsame x hx hh).symm
  · simp only [hh, id]
    rfl

/-- C6, counterexample: (1) two submits that read the same clock value 1000
store two entries with one id; `handleEdit 1000` followed by `handleSubmit`
then overwrites the second entry with the values of the first; (2) a
`handleSubmit` called while no form type is selected stores an entry whose
form type has no schema, on which `handleEdit` raises; (3) an entry stamped
with the clock value 0 fails the test `isEditing && editingId`, so that
`handleEdit 0` followed by `handleSubmit` appends a second entry. -/
theorem edit_submit_counterexample :
    (run State.initial [Event.formTypeChange "User Information",
        Event.inputChange "firstName" "Ana", Event.inputChange "lastName" "Lee",
        Event.submit 1000, Event.inputChange "firstName" "Bob", Event.submit 1000,
        Event.edit 1000, Event.submit 3000]).submittedData ≠
      (run State.initial [Event.formTypeChange "User Information",
        Event.inputChange "firstName" "Ana", Event.inputChange "lastName" "Lee",
        Event.submit 1000, Event.inputChange "firstName" "Bob",
        Event.submit 1000]).submittedData ∧
    (∃ entry ∈ (run State.initial [Event.submit 1000]).submittedData,
      entry.get "id" = some (JSVal.num 1000) ∧
      ∃ s, handleEdit 1000 (run State.initial [Event.submit 1000]) = Outcome.threw s) ∧
    (run State.initial [Event.formTypeChange "User Information",
        Event.inputChange "firstName" "Ana", Event.inputChange "lastName" "Lee",
        Event.submit 0, Event.edit 0, Event.submit 3000]).submittedData ≠
      (run State.initial [Event.formTypeChange "User Information",
        Event.inputChange "firstName" "Ana", Event.inputChange "lastName" "Lee",
        Event.submit 0]).submittedData :=
  ⟨by decide, ⟨_, List.mem_singleton.mpr rfl, by decide, _, rfl⟩, by decide⟩

/-- C6, amended: in every state reached from the initial state through the
rendered controls (the form type selector, the inputs of the current fields,
the submit button while a form type is selected, the edit and delete buttons
of the stored entries) and timer resets, with submits reading strictly
increasing positive clock values, every stored entry has a numeric id such
that `handleEdit` on that id returns and an immediately following
`handleSubmit` returns with the success message of an update and with the
store equal to the store before the two calls. -/
theorem edit_submit_roundtrip (evs : List Event)
    (hen : enabledRun State.initial evs = true)
    (hclock : clockIncreasing 0 evs = true) :
    ∀ entry ∈ (run State.initial evs).submittedData,
      ∃ id, entry.get "id" = some (JSVal.num id) ∧
        ∃ s1, handleEdit id (run State.initial evs) = Outcome.returned s1 ∧
          ∀ now, ∃ s2, handleSubmit now s1 = Outcome.returned s2 ∧
            s2.submittedData = (run State.initial evs).submittedData ∧
            s2.successMessage = "Form updated successfully!" := by
  obtain ⟨c, -, hinv⟩ := run_inv evs 0 State.initial Inv.initial (le_refl _) hen hclock
  intro entry hmem
  exact edit_submit_of_inv c _ hinv entry hmem

/-- Witness of C6 (amended): two "User Information" entries submitted at the
readings 1000 and 2000; editing and resubmitting the second one leaves the
store as it was. -/
theorem edit_submit_roundtrip_witness :
    (run State.initial [Event.formTypeChange "User Information",
        Event.inputChange "firstName" "Ana", Event.inputChange "lastName" "Lee",
        Event.submit 1000, Event.inputChange "firstName" "Bob", Event.submit 2000,
        Event.timeout, Event.timeout]).submittedData.length = 2 ∧
    ∀ entry ∈ (run State.initial [Event.formTypeChange "User Information",
        Event.inputChange "firstName" "Ana", Event.inputChange "lastName" "Lee",
        Event.submit 1000, Event.inputChange "firstName" "Bob", Event.submit 2000,
        Event.timeout, Event.timeout]).submittedData,
      ∃ id, entry.get "id" = some (JSVal.num id) ∧
        ∃ s1, handleEdit id (run State.initial [Event.formTypeChange "User Information",
            Event.inputChange "firstName" "Ana", Event.inputChange "lastName" "Lee",
            Event.submit 1000, Event.inputChange "firstName" "Bob", Event.submit 2000,
            Event.timeout, Event.timeout]) = Outcome.returned s1 ∧
          ∀ now, ∃ s2, handleSubmit now s1 = Outcome.returned s2 ∧
            s2.submittedData = (run State.initial [Event.formTypeChange "User Information",
              Event.inputChange "firstName" "Ana", Event.inputChange "lastName" "Lee",
              Event.submit 1000, Event.inputChange "firstName" "Bob", Event.submit 2000,
              Event.timeout, Event.timeout]).submittedData ∧
            s2.successMessage = "Form updated successfully!" :=
  ⟨by decide, edit_submit_roundtrip _ (by decide) (by decide)⟩

/-! ## The schema lookup -/

/-- C16: the lookup `API_RESPONSES[type]?.fields || []` used by
`handleFormTypeChange` gives the empty field list for every string that is not
one of the three keys of the table, and for each key the field descriptors of
its schema in their declared order. -/
theorem lookup_spec :
    (∀ (type : String) (s : State),
      (handleFormTypeChange type s).formFields = fieldsOrEmpty type) ∧
    (∀ type : String, type ≠ "User Information" → type ≠ "Address Information" →
      type ≠ "Payment Information" → fieldsOrEmpty type = []) ∧
    fieldsOrEmpty "User Information" =
      [ Field.mk "firstName" "text" "First Name" true none,
        Field.mk "lastName" "text" "Last Name" true none,
        Field.mk "age" "number" "Age" false none ] ∧
    fieldsOrEmpty "Address Information" =
      [ Field.mk "street" "text" "Street" true none,
        Field.mk "city" "text" "City" true none,
        Field.mk "state" "dropdown" "State" true (some ["California", "Texas", "New York"]),
        Field.mk "zipCode" "text" "Zip Code" false none ] ∧
    fieldsOrEmpty "Payment Information" =
      [ Field.mk "cardNumber" "text" "Card Number" true none,
        Field.mk "expiryDate" "date" "Expiry Date" true none,
        Field.mk "cvv" "password" "CVV" true none,
        Field.mk "cardholderName" "text" "Cardholder Name" true none ] := by
  refine ⟨fun _ _ => rfl, ?_, rfl, rfl, rfl⟩
  intro type h1 h2 h3
  simp [fieldsOrEmpty, API_RESPONSES, Dict.get, Ne.symm h1, Ne.symm h2, Ne.symm h3]

/-- Witness of C16: the lookup of the empty string and of a misspelt key. -/
theorem lookup_spec_witness :
    fieldsOrEmpty "" = [] ∧ fieldsOrEmpty "user information" = [] :=
  ⟨lookup_spec.2.1 "" (by decide) (by decide) (by decide),
   lookup_spec.2.1 "user information" (by decide) (by decide) (by decide)⟩

/-! ## The timer reset -/

theorem resetCallback_spec (s : State) :
    (resetCallback s).selectedFormType = "" ∧
    (resetCallback s).formFields = [] ∧
    (resetCallback s).formData = [] ∧
    (resetCallback s).progress = some 0 ∧
    (resetCallback s).isEditing = false ∧
    (resetCallback s).editingId = none ∧
    (resetCallback s).successMessage = "" ∧
    (resetCallback s).submittedData = s.submittedData ∧
    (resetCallback s).errors = s.errors :=
  ⟨rfl, rfl, rfl, rfl, rfl, rfl, rfl, rfl, rfl⟩

/-- C14, the code at the failing input: a valid "User Information" form is
submitted at clock reading 1000; before the timer fires `lastName` is emptied
and the form is submitted again, which is rejected with an error; when the
timer then fires, every cell of the session is reset and the store keeps its
entry, but `errors` still holds "Last Name is required". -/
theorem reset_keeps_errors :
    (run State.initial [Event.formTypeChange "User Information",
      Event.inputChange "firstName" "Ana", Event.inputChange "lastName" "Lee",
      Event.submit 1000, Event.inputChange "lastName" "", Event.submit 1500,
      Event.timeout]).errors = [("lastName", "Last Name is required")] ∧
    (run State.initial [Event.formTypeChange "User Information",
      Event.inputChange "firstName" "Ana", Event.inputChange "lastName" "Lee",
      Event.submit 1000, Event.inputChange "lastName" "", Event.submit 1500,
      Event.timeout]).selectedFormType = "" ∧
    (run State.initial [Event.formTypeChange "User Information",
      Event.inputChange "firstName" "Ana", Event.inputChange "lastName" "Lee",
      Event.submit 1000, Event.inputChange "lastName" "", Event.submit 1500,
      Event.timeout]).formData = [] ∧
    enabledRun State.initial [Event.formTypeChange "User Information",
      Event.inputChange "firstName" "Ana", Event.inputChange "lastName" "Lee",
      Event.submit 1000, Event.inputChange "lastName" "", Event.submit 1500,
      Event.timeout] = true := by
  refine ⟨by decide, by decide, by decide, by decide⟩

/-! ## Editing mode -/

/-- C12, the code at the failing input: an entry stamped 1000 is loaded with
`handleEdit` and then removed with `handleDelete`; `editingId` is still 1000
and `isEditing` still true although the store is empty, and the next submit
reports an update while storing nothing. -/
theorem delete_keeps_editing :
    (run State.initial [Event.formTypeChange "User Information",
      Event.inputChange "firstName" "Ana", Event.inputChange "lastName" "Lee",
      Event.submit 1000, Event.timeout, Event.edit 1000,
      Event.delete 1000]).editingId = some 1000 ∧
    (run State.initial [Event.formTypeChange "User Information",
      Event.inputChange "firstName" "Ana", Event.inputChange "lastName" "Lee",
      Event.submit 1000, Event.timeout, Event.edit 1000,
      Event.delete 1000]).isEditing = true ∧
    (run State.initial [Event.formTypeChange "User Information",
      Event.inputChange "firstName" "Ana", Event.inputChange "lastName" "Lee",
      Event.submit 1000, Event.timeout, Event.edit 1000,
      Event.delete 1000]).submittedData = [] ∧
    (run State.initial [Event.formTypeChange "User Information",
      Event.inputChange "firstName" "Ana", Event.inputChange "lastName" "Lee",
      Event.submit 1000, Event.timeout, Event.edit 1000,
      Event.delete 1000, Event.submit 5000]).submittedData = [] ∧
    (run State.initial [Event.formTypeChange "User Information",
      Event.inputChange "firstName" "Ana", Event.inputChange "lastName" "Lee",
      Event.submit 1000, Event.timeout, Event.edit 1000,
      Event.delete 1000, Event.submit 5000]).successMessage =
        "Form updated successfully!" ∧
    enabledRun State.initial [Event.formTypeChange "User Information",
      Event.inputChange "firstName" "Ana", Event.inputChange "lastName" "Lee",
      Event.submit 1000, Event.timeout, Event.edit 1000,
      Event.delete 1000, Event.submit 5000] = true := by
  refine ⟨by decide, by decide, by decide, by decide, by decide, by decide⟩

theorem strValued_del (data : Obj) (k : String) (h : strValued data = true) :
    strValued (data.del k) = true := by
  unfold strValued Dict.del at *
  rw [List.all_eq_true] at h ⊢
  intro p hp
  exact h p (List.mem_filter.mp hp).1

theorem Dict.keys_del {α : Type} (o : Dict α) (k k' : String) (h : k' ∈ (o.del k).keys) :
    k' ∈ o.keys ∧ k' ≠ k := by
  unfold Dict.keys Dict.del at *
  obtain ⟨p, hp, rfl⟩ := List.mem_map.mp h
  have hp' := List.mem_filter.mp hp
  exact ⟨List.mem_map_of_mem _ hp'.1, by simpa using hp'.2⟩

theorem Dict.get_del_same {α : Type} (o : Dict α) (k : String) : (o.del k).get k = none := by
  apply Dict.get_eq_none_of_not_mem
  intro h
  exact (Dict.keys_del o k k h).2 rfl

theorem Dict.del_cons {α : Type} (k0 : String) (v0 : α) (o : Dict α) (k : String) :
    Dict.del ((k0, v0) :: o) k = if k0 = k then Dict.del o k else (k0, v0) :: Dict.del o k := by
  by_cases h : k0 = k <;> simp [Dict.del, List.filter_cons, h]

theorem Dict.get_del_ne {α : Type} (o : Dict α) (k k' : String) (h : k' ≠ k) :
    (o.del k).get k' = o.get k' := by
  induction o with
  | nil => rfl
  | cons p o ih =>
    obtain ⟨k0, v0⟩ := p
    rw [Dict.del_cons]
    by_cases h0 : k0 = k
    · have h1 : ¬ k0 = k' := fun e => h (e.symm.trans h0)
      rw [if_pos h0, ih]
      simp only [Dict.get, h1, if_false]
    · rw [if_neg h0]
      by_cases h1 : k0 = k'
      · simp only [Dict.get, h1, if_true]
      · simp only [Dict.get, h1, if_false, ih]

/-- The state `handleEdit` returns when the first entry with the id has a
schema and string values. -/
theorem handleEdit_returned (id : Int) (s : State) (entry : Obj)
    (formType : String) (schema : Schema)
    (hfind : s.submittedData.find? (hasId id) = some entry)
    (hft : entry.get "formType" = some (JSVal.str formType))
    (hget : API_RESPONSES.get formType = some schema)
    (hty : strValued ((entry.del "id").del "formType") = true) :
    handleEdit id s = Outcome.returned { s with
      selectedFormType := formType
      formFields := schema.fields
      formData := (entry.del "id").del "formType"
      isEditing := true
      editingId := some id
      progress := progressOf
        (filledRequired schema.fields ((entry.del "id").del "formType"))
        (requiredCount schema.fields) } := by
  simp only [handleEdit, hfind, hft, hget, completedRequired_of_strValued _ _ hty]
  rfl

theorem find_of_only (store : List Obj) (id : Int) (entry : Obj)
    (hmem : entry ∈ store) (hid : entry.get "id" = some (JSVal.num id))
    (honly : ∀ other ∈ store, other.get "id" = some (JSVal.num id) → other = entry) :
    store.find? (hasId id) = some entry := by
  have hhas : hasId id entry = true := by simp [hasId, hid]
  obtain ⟨found, hfind, hfmem, hfhas⟩ :=
    find_of_any store id (List.any_eq_true.mpr ⟨entry, hmem, hhas⟩)
  unfold hasId at hfhas
  simp only [decide_eq_true_eq] at hfhas
  rw [hfind, honly found hfmem hfhas]

/-! ## Loading an entry for edit -/

/-- C11, counterexample: (1) two entries stored at the same clock reading 1000
share their id, and `handleEdit 1000` loads the values of the first one, not
those of the second; (2) after a rejected submit has left an error message,
`handleEdit` loads an entry and keeps the message. -/
theorem edit_loads_counterexample :
    (∃ entry ∈ (run State.initial [Event.formTypeChange "User Information",
          Event.inputChange "firstName" "Ana", Event.inputChange "lastName" "Lee",
          Event.submit 1000, Event.inputChange "firstName" "Bob",
          Event.submit 1000]).submittedData,
      entry.get "id" = some (JSVal.num 1000) ∧
      (handleEdit 1000 (run State.initial [Event.formTypeChange "User Information",
          Event.inputChange "firstName" "Ana", Event.inputChange "lastName" "Lee",
          Event.submit 1000, Event.inputChange "firstName" "Bob",
          Event.submit 1000])).state.formData ≠ (entry.del "id").del "formType") ∧
    (handleEdit 1000 (run State.initial [Event.formTypeChange "User Information",
        Event.inputChange "firstName" "Ana", Event.inputChange "lastName" "Lee",
        Event.submit 1000, Event.inputChange "lastName" "",
        Event.submit 1500])).state.errors = [("lastName", "Last Name is required")] :=
  ⟨⟨[("firstName", JSVal.str "Bob"), ("lastName", JSVal.str "Lee"),
      ("id", JSVal.num 1000), ("formType", JSVal.str "User Information")],
    by decide, by decide, by decide⟩, by decide⟩

/-- C11, amended: for every session state and every stored entry whose id is
a number that no other stored entry bears (every stored entry with that id is
equal to it), whose form type is a key of the table and whose other values are
strings, `handleEdit` on that id returns a session whose form type is that of
the entry, whose fields are the lookup of that form type, whose values are the
entry without `id` and `formType`, with `isEditing` true, `editingId` the id,
and `progress` recomputed from those values as `(c / r) * 100` in double
arithmetic, a number between 0 and 100; the store is unchanged. -/
theorem edit_loads (id : Int) (s : State) (entry : Obj) (formType : String) (schema : Schema)
    (hmem : entry ∈ s.submittedData) (hid : entry.get "id" = some (JSVal.num id))
    (honly : ∀ other ∈ s.submittedData, other.get "id" = some (JSVal.num id) → other = entry)
    (hft : entry.get "formType" = some (JSVal.str formType))
    (hget : API_RESPONSES.get formType = some schema)
    (hty : strValued ((entry.del "id").del "formType") = true) :
    ∃ s', handleEdit id s = Outcome.returned s' ∧
      s'.selectedFormType = formType ∧
      s'.formFields = fieldsOrEmpty formType ∧
      s'.formData = (entry.del "id").del "formType" ∧
      (∀ k, k ≠ "id" → k ≠ "formType" → s'.formData.get k = entry.get k) ∧
      s'.formData.get "id" = none ∧
      s'.formData.get "formType" = none ∧
      s'.isEditing = true ∧
      s'.editingId = some id ∧
      s'.progress = progressOf (filledRequired s'.formFields s'.formData)
        (requiredCount s'.formFields) ∧
      (∃ p, s'.progress = some p ∧ 0 ≤ p ∧ p ≤ 100) ∧
      s'.submittedData = s.submittedData := by
  have hfind := find_of_only _ id entry hmem hid honly
  have hf := (registry_mem_of_get formType schema hget).2
  have hpos := requiredCount_pos_of_registry formType schema hget
  have hle : filledRequired schema.fields ((entry.del "id").del "formType") ≤
      requiredCount schema.fields := List.length_filter_le _ _
  refine ⟨_, handleEdit_returned id s entry formType schema hfind hft hget hty,
    rfl, hf.symm, rfl, ?_, ?_, ?_, rfl, rfl, rfl, progressOf_bounds _ _ hpos hle, rfl⟩
  · intro k h1 h2
    show ((entry.del "id").del "formType").get k = entry.get k
    rw [Dict.get_del_ne _ _ _ h2, Dict.get_del_ne _ _ _ h1]
  · show ((entry.del "id").del "formType").get "id" = none
    rw [Dict.get_del_ne _ _ _ (by decide), Dict.get_del_same]
  · exact Dict.get_del_same _ _

/-- Witness of C11 (amended): three "User Information" entries stored at the
clock readings 1000, 2000 and 2000; the first one, whose id no other entry
bears, is loaded again. -/
theorem edit_loads_witness :
    (handleEdit 1000 (run State.initial [Event.formTypeChange "User Information",
        Event.inputChange "firstName" "Ana", Event.inputChange "lastName" "Lee",
        Event.submit 1000, Event.inputChange "firstName" "Bob", Event.submit 2000,
        Event.inputChange "firstName" "Cy", Event.submit 2000])).state.formData =
      [("firstName", JSVal.str "Ana"), ("lastName", JSVal.str "Lee")] ∧
    (handleEdit 1000 (run State.initial [Event.formTypeChange "User Information",
        Event.inputChange "firstName" "Ana", Event.inputChange "lastName" "Lee",
        Event.submit 1000, Event.inputChange "firstName" "Bob", Event.submit 2000,
        Event.inputChange "firstName" "Cy", Event.submit 2000])).state.editingId =
      some 1000 := by
  obtain ⟨s', h1, -, -, h4, -, -, -, -, h9, -, -, -⟩ := edit_loads 1000
    (run State.initial [Event.formTypeChange "User Information",
      Event.inputChange "firstName" "Ana", Event.inputChange "lastName" "Lee",
      Event.submit 1000, Event.inputChange "firstName" "Bob", Event.submit 2000,
      Event.inputChange "firstName" "Cy", Event.submit 2000])
    [("firstName", JSVal.str "Ana"), ("lastName", JSVal.str "Lee"),
      ("id", JSVal.num 1000), ("formType", JSVal.str "User Information")]
    "User Information" (Schema.mk (fieldsOrEmpty "User Information"))
    (by decide) (by decide) (by decide) (by decide) (by decide) (by decide)
  rw [h1]
  exact ⟨h4.trans (by decide), h9⟩

/-! ## The flat encoding of an entry -/

/-- C18, counterexample: the store already holds an entry stamped 1000 when a
second session is submitted at the same clock reading; `handleEdit` on the id
of the new entry restores the first name "Ana" of the older entry, not the
submitted "Bob". -/
theorem submit_edit_counterexample :
    (run State.initial [Event.formTypeChange "User Information",
        Event.inputChange "firstName" "Ana", Event.inputChange "lastName" "Lee",
        Event.submit 1000, Event.inputChange "firstName" "Bob"]).formData =
      [("firstName", JSVal.str "Bob"), ("lastName", JSVal.str "Lee")] ∧
    (run State.initial [Event.formTypeChange "User Information",
        Event.inputChange "firstName" "Ana", Event.inputChange "lastName" "Lee",
        Event.submit 1000, Event.inputChange "firstName" "Bob",
        Event.submit 1000, Event.edit 1000]).formData =
      [("firstName", JSVal.str "Ana"), ("lastName", JSVal.str "Lee")] := by
  refine ⟨by decide, by decide⟩

/-- C18, amended: for every session outside editing mode whose form type is a
key of the table, whose field list is the schema of that key, whose values are
strings under names of that schema and pass validation, and for every store
holding no entry with the id `now`: `handleSubmit` at clock reading `now`
appends the session values followed by `id` and `formType`, and `handleEdit`
on `now` then returns a session with exactly the submitted values, form type
and field list. -/
theorem submit_edit_restores (now : Int) (s : State) (schema : Schema)
    (hg : editTarget s = none) (hv : validationErrors s = some [])
    (hget : API_RESPONSES.get s.selectedFormType = some schema)
    (hfields : s.formFields = schema.fields)
    (hkeys : ∀ k ∈ s.formData.keys, k ∈ s.formFields.map Field.name)
    (hty : strValued s.formData = true)
    (hfresh : ∀ entry ∈ s.submittedData, hasId now entry = false) :
    ∃ s1 s2,
      handleSubmit now s = Outcome.returned s1 ∧
      s1.submittedData = s.submittedData ++
        [s.formData ++ [("id", JSVal.num now), ("formType", JSVal.str s.selectedFormType)]] ∧
      handleEdit now s1 = Outcome.returned s2 ∧
      s2.formData = s.formData ∧
      s2.selectedFormType = s.selectedFormType ∧
      s2.formFields = s.formFields ∧
      s2.editingId = some now ∧
      s2.submittedData = s1.submittedData := by
  have hnames : ∀ k ∈ s.formData.keys, k ≠ "id" ∧ k ≠ "formType" := by
    intro k hk
    obtain ⟨f, hf, rfl⟩ := List.mem_map.mp (hkeys k hk)
    rw [hfields, ← (registry_mem_of_get _ _ hget).2] at hf
    exact registry_field_names _ f hf
  have h1 : "id" ∉ s.formData.keys := fun h => (hnames _ h).1 rfl
  have h2 : "formType" ∉ s.formData.keys := fun h => (hnames _ h).2 rfl
  have hplain : plainData s.formData = true := (plainData_iff _).mpr ⟨hty, h1, h2⟩
  have hmk := mkEntry_of_plain s.formData now s.selectedFormType h1 h2
  have hs := handleSubmit_appended now s hg hv
  rw [hmk] at hs
  have hfind : (s.submittedData ++
      [s.formData ++ [("id", JSVal.num now), ("formType", JSVal.str s.selectedFormType)]]).find?
        (hasId now) =
      some (s.formData ++
        [("id", JSVal.num now), ("formType", JSVal.str s.selectedFormType)]) := by
    have hnone : s.submittedData.find? (hasId now) = none := by
      rw [List.find?_eq_none]
      intro x hx
      simp [hfresh x hx]
    have hhas : hasId now (s.formData ++
        [("id", JSVal.num now), ("formType", JSVal.str s.selectedFormType)]) = true := by
      rw [← hmk]
      simp [hasId, mkEntry_get_id]
    rw [List.find?_append, hnone]
    simp [List.find?, hhas]
  refine ⟨_, _, hs, rfl, handleEdit_of_find now now _ _ s.formData s.selectedFormType schema
    hfind rfl hplain hget, rfl, rfl, hfields.symm, rfl, rfl⟩

/-- Witness of C18 (amended): "User Information" with `firstName` "Ana" and
`lastName` "Lee", submitted at clock reading 1000 on the empty store and
loaded again. -/
theorem submit_edit_restores_witness :
    (run State.initial [Event.formTypeChange "User Information",
        Event.inputChange "firstName" "Ana", Event.inputChange "lastName" "Lee",
        Event.submit 1000, Event.edit 1000]).formData =
      (run State.initial [Event.formTypeChange "User Information",
        Event.inputChange "firstName" "Ana", Event.inputChange "lastName" "Lee"]).formData := by
  obtain ⟨s1, s2, h1, -, h3, h4, -, -, -, -⟩ := submit_edit_restores 1000
    (run State.initial [Event.formTypeChange "User Information",
      Event.inputChange "firstName" "Ana", Event.inputChange "lastName" "Lee"])
    (Schema.mk (fieldsOrEmpty "User Information"))
    (by decide) (by decide) (by decide) (by decide) (by decide) (by decide) (by decide)
  have hrun : run State.initial [Event.formTypeChange "User Information",
        Event.inputChange "firstName" "Ana", Event.inputChange "lastName" "Lee",
        Event.submit 1000, Event.edit 1000] = s2 := by
    have e1 : run State.initial [Event.formTypeChange "User Information",
        Event.inputChange "firstName" "Ana", Event.inputChange "lastName" "Lee",
        Event.submit 1000, Event.edit 1000] =
        (handleEdit 1000 (handleSubmit 1000 (run State.initial
          [Event.formTypeChange "User Information",
           Event.inputChange "firstName" "Ana",
           Event.inputChange "lastName" "Lee"])).state).state := rfl
    rw [e1, h1]
    show (handleEdit 1000 s1).state = s2
    rw [h3]
    rfl
  rw [hrun, h4]

/-! ## The rendered form, whatever the clock reads -/

theorem rendered_initial : Rendered State.initial :=
  ⟨rfl, Or.inl rfl, rfl, rfl, fun _ h => absurd h (List.not_mem_nil _)⟩

theorem rendered_formTypeChange {s : State} (h : Rendered s) (type : String)
    (hen : enabled s (Event.formTypeChange type) = true) :
    Rendered (handleFormTypeChange type s) := by
  obtain ⟨-, -, -, h4, h5⟩ := h
  simp only [enabled, decide_eq_true_eq] at hen
  exact ⟨rfl, Or.inr hen, rfl, h4, h5⟩

theorem rendered_timeout {s : State} (h : Rendered s) : Rendered (resetCallback s) := by
  obtain ⟨-, -, -, h4, h5⟩ := h
  exact ⟨rfl, Or.inl rfl, rfl, h4, h5⟩

theorem rendered_delete {s : State} (h : Rendered s) (id : Int) :
    Rendered (handleDelete id s) := by
  obtain ⟨h1, h2, h3, h4, h5⟩ := h
  exact ⟨h1, h2, h3, h4, fun entry he => h5 entry (List.mem_filter.mp he).1⟩

theorem rendered_inputChange {s : State} (h : Rendered s) (name value : String)
    (hen : enabled s (Event.inputChange name value) = true) :
    Rendered (handleInputChange name value s).state := by
  obtain ⟨h1, h2, h3, h4, h5⟩ := h
  simp only [enabled, Bool.and_eq_true, decide_eq_true_eq] at hen
  obtain ⟨f, hf, hname⟩ := List.mem_map.mp hen.2
  rw [h1] at hf
  have hn := registry_field_names _ f hf
  rw [hname] at hn
  rw [handleInputChange_of_strValued name value s ((plainData_iff _).mp h3).1]
  exact ⟨h1, h2, plainData_set _ _ _ h3 hn.1 hn.2, h4, h5⟩

theorem shapedEntry_mkEntry (id : Int) (s : State) (schema : Schema)
    (hplain : plainData s.formData = true)
    (hget : API_RESPONSES.get s.selectedFormType = some schema)
    (hfields : s.formFields = schema.fields)
    (hv : validationErrors s = some []) :
    ShapedEntry (mkEntry s.formData id s.selectedFormType) := by
  have hp := (plainData_iff _).mp hplain
  obtain ⟨hr, hcard⟩ := validation_passed s hp.1 hv
  rw [hfields] at hr
  exact ⟨s.formData, id, s.selectedFormType, schema,
    mkEntry_of_plain _ _ _ hp.2.1 hp.2.2, hplain, hget, hr, hcard⟩

theorem handleSubmit_returns (now : Int) (s : State) (hty : strValued s.formData = true) :
    ∃ s', handleSubmit now s = Outcome.returned s' := by
  obtain ⟨errs0, -, hv, -⟩ := validationErrors_of_strValued s hty
  by_cases hne : (if s.selectedFormType = "Payment Information" ∧
            nonEmptyValue s.formData "cardNumber" = true ∧
            sixteenDigits s.formData "cardNumber" = false
         then errs0.set "cardNumber" "Card number must be 16 digits" else errs0) = []
  · rw [hne] at hv
    cases hg : editTarget s with
    | some id =>
      obtain ⟨het, hid, hz⟩ := editTarget_some s id hg
      exact ⟨_, handleSubmit_replaced now id s het hid hz hv⟩
    | none => exact ⟨_, handleSubmit_appended now s hg hv⟩
  · exact ⟨_, handleSubmit_rejected now s _ hv hne⟩

theorem rendered_submit {s : State} (h : Rendered s) (now : Int)
    (hen : enabled s (Event.submit now) = true) :
    Rendered (handleSubmit now s).state := by
  obtain ⟨h1, h2, h3, h4, h5⟩ := h
  have hty := ((plainData_iff _).mp h3).1
  simp only [enabled, Bool.and_eq_true, decide_eq_true_eq] at hen
  obtain ⟨errs0, -, hv, -⟩ := validationErrors_of_strValued s hty
  by_cases hne : (if s.selectedFormType = "Payment Information" ∧
            nonEmptyValue s.formData "cardNumber" = true ∧
            sixteenDigits s.formData "cardNumber" = false
         then errs0.set "cardNumber" "Card number must be 16 digits" else errs0) = []
  · rw [hne] at hv
    have hkey : s.selectedFormType ∈ API_RESPONSES.keys := by
      rcases h2 with e | e
      · exact absurd e hen.1
      · exact e
    obtain ⟨schema, hget, hf⟩ := registry_get_of_mem _ hkey
    have hfields : s.formFields = schema.fields := by rw [h1, hf]
    cases hg : editTarget s with
    | some id =>
      obtain ⟨het, hid, hz⟩ := editTarget_some s id hg
      rw [handleSubmit_replaced now id s het hid hz hv]
      refine ⟨h1, h2, h3, h4, ?_⟩
      intro entry he
      obtain ⟨old, hmem, rfl⟩ := List.mem_map.mp he
      by_cases hh : hasId id old = true
      · rw [if_pos hh]
        exact shapedEntry_mkEntry id s schema h3 hget hfields hv
      · rw [if_neg hh]
        exact h5 old hmem
    | none =>
      rw [handleSubmit_appended now s hg hv]
      refine ⟨h1, h2, h3, h4, ?_⟩
      intro entry he
      rcases List.mem_append.mp he with he | he
      · exact h5 entry he
      · rw [List.mem_singleton.mp he]
        exact shapedEntry_mkEntry now s schema h3 hget hfields hv
  · rw [handleSubmit_rejected now s _ hv hne]
    exact ⟨h1, h2, h3, h4, h5⟩

theorem rendered_edit_returned {s : State} (h : Rendered s) (id : Int)
    (hen : enabled s (Event.edit id) = true) :
    ∃ s', handleEdit id s = Outcome.returned s' ∧ Rendered s' := by
  obtain ⟨h1, h2, h3, h4, h5⟩ := h
  simp only [enabled] at hen
  obtain ⟨entry, hfind, hmem, -⟩ := find_of_any _ _ hen
  obtain ⟨data, n, formType, schema, e1, e2, e3, -, -⟩ := h5 entry hmem
  refine ⟨_, handleEdit_of_find id n s entry data formType schema hfind e1 e2 e3, ?_⟩
  obtain ⟨hk, hf⟩ := registry_mem_of_get _ _ e3
  exact ⟨hf.symm, Or.inr hk, e2, h4, h5⟩

theorem rendered_step {s : State} (h : Rendered s) (e : Event)
    (hen : enabled s e = true) : Rendered (step s e) := by
  cases e with
  | formTypeChange type => exact rendered_formTypeChange h type hen
  | inputChange name value => exact rendered_inputChange h name value hen
  | submit now => exact rendered_submit h now hen
  | edit id =>
    obtain ⟨s', hs, hr⟩ := rendered_edit_returned h id hen
    show Rendered (handleEdit id s).state
    rw [hs]
    exact hr
  | delete id => exact rendered_delete h id
  | timeout => exact rendered_timeout h

theorem run_rendered (evs : List Event) (s : State) (h : Rendered s)
    (hen : enabledRun s evs = true) : Rendered (run s evs) := by
  induction evs generalizing s with
  | nil => exact h
  | cons e es ih =>
    simp only [enabledRun, Bool.and_eq_true] at hen
    exact ih _ (rendered_step h e hen.1) hen.2

theorem rendered_dispatch {s : State} (h : Rendered s) (e : Event)
    (hen : enabled s e = true) : ∃ s', dispatch s e = Outcome.returned s' := by
  cases e with
  | formTypeChange type => exact ⟨_, rfl⟩
  | inputChange name value =>
    exact ⟨_, handleInputChange_of_strValued name value s ((plainData_iff _).mp h.2.2.1).1⟩
  | submit now => exact handleSubmit_returns now s ((plainData_iff _).mp h.2.2.1).1
  | edit id =>
    obtain ⟨s', hs, -⟩ := rendered_edit_returned h id hen
    exact ⟨s', hs⟩
  | delete id => exact ⟨_, rfl⟩
  | timeout => exact ⟨_, rfl⟩

/-! ## Which handler calls raise -/

theorem handleEdit_missing (id : Int) (s : State)
    (h : ∀ entry ∈ s.submittedData, hasId id entry = false) :
    handleEdit id s = Outcome.threw s := by
  have hnone : s.submittedData.find? (hasId id) = none := by
    rw [List.find?_eq_none]
    intro x hx
    simp [h x hx]
  simp only [handleEdit, hnone]

theorem handleEdit_no_schema (id : Int) (s : State) (entry : Obj) (formType : String)
    (hfind : s.submittedData.find? (hasId id) = some entry)
    (hft : entry.get "formType" = some (JSVal.str formType))
    (hget : API_RESPONSES.get formType = none)
    (hown : formType ∉ inheritedNames) :
    handleEdit id s = Outcome.threw { s with selectedFormType := formType } := by
  simp only [handleEdit, hfind, hft, hget, hown, if_false]

theorem handleEdit_inherited (id : Int) (s : State) (entry : Obj) (formType : String)
    (hfind : s.submittedData.find? (hasId id) = some entry)
    (hft : entry.get "formType" = some (JSVal.str formType))
    (hinh : formType ∈ inheritedNames) :
    handleEdit id s = Outcome.unmounted s := by
  have hget : API_RESPONSES.get formType = none := by
    cases h : API_RESPONSES.get formType with
    | none => rfl
    | some schema =>
      have hk := (registry_mem_of_get formType schema h).1
      have hk' : formType = "User Information" ∨ formType = "Address Information" ∨
          formType = "Payment Information" := by
        simpa [API_RESPONSES, Dict.keys] using hk
      rcases hk' with rfl | rfl | rfl <;> exact absurd hinh (by decide)
  simp only [handleEdit, hfind, hft, hget, hinh, if_true]

/-- C15, counterexample: `handleEdit` raises on an id that no stored entry
has; on the id of an entry stored while no form type was selected, whose form
type "" has no schema; and on the id of an entry stored under the form type
"constructor", where it raises only after queuing `setFormFields(undefined)`,
which ends the component. -/
theorem handlers_return_counterexample :
    handleEdit 7 State.initial = Outcome.threw State.initial ∧
    (∃ entry ∈ (run State.initial [Event.submit 1000]).submittedData,
      entry.get "id" = some (JSVal.num 1000) ∧
      handleEdit 1000 (run State.initial [Event.submit 1000]) =
        Outcome.threw (run State.initial [Event.submit 1000])) ∧
    (∃ entry ∈ (run State.initial [Event.formTypeChange "constructor",
          Event.submit 1000]).submittedData,
      entry.get "id" = some (JSVal.num 1000) ∧
      handleEdit 1000 (run State.initial [Event.formTypeChange "constructor",
          Event.submit 1000]) =
        Outcome.unmounted (run State.initial [Event.formTypeChange "constructor",
          Event.submit 1000])) :=
  ⟨rfl, ⟨_, List.mem_singleton.mpr rfl, by decide, rfl⟩,
    ⟨_, List.mem_singleton.mpr rfl, by decide, rfl⟩⟩

/-- C15, amended: `handleFormTypeChange`, `handleDelete` and the timer reset
return in every state; `handleInputChange` and `handleSubmit` return in every
state whose values are strings; `handleEdit` returns when the first stored
entry with the id has a form type of the table and string values; it raises
when no stored entry has the id, leaving the state as it was; it raises when
the form type of that entry is neither a key of the table nor the name of an
inherited property, leaving only the form type changed; and when the form
type names an inherited property it raises after queuing an undefined field
list, which unmounts the component; in particular every call that the
rendered controls can raise, after any sequence of such calls from the initial
state, returns. -/
theorem handlers_return :
    (∀ (s : State) (type : String),
      ∃ s', dispatch s (Event.formTypeChange type) = Outcome.returned s') ∧
    (∀ (s : State) (id : Int), ∃ s', dispatch s (Event.delete id) = Outcome.returned s') ∧
    (∀ s : State, ∃ s', dispatch s Event.timeout = Outcome.returned s') ∧
    (∀ (name value : String) (s : State), strValued s.formData = true →
      ∃ s', handleInputChange name value s = Outcome.returned s') ∧
    (∀ (now : Int) (s : State), strValued s.formData = true →
      ∃ s', handleSubmit now s = Outcome.returned s') ∧
    (∀ (id : Int) (s : State) (entry : Obj) (formType : String) (schema : Schema),
      s.submittedData.find? (hasId id) = some entry →
      entry.get "formType" = some (JSVal.str formType) →
      API_RESPONSES.get formType = some schema →
      strValued ((entry.del "id").del "formType") = true →
      ∃ s', handleEdit id s = Outcome.returned s') ∧
    (∀ (id : Int) (s : State), (∀ entry ∈ s.submittedData, hasId id entry = false) →
      handleEdit id s = Outcome.threw s) ∧
    (∀ (id : Int) (s : State) (entry : Obj) (formType : String),
      s.submittedData.find? (hasId id) = some entry →
      entry.get "formType" = some (JSVal.str formType) →
      API_RESPONSES.get formType = none →
      formType ∉ inheritedNames →
      handleEdit id s = Outcome.threw { s with selectedFormType := formType }) ∧
    (∀ (id : Int) (s : State) (entry : Obj) (formType : String),
      s.submittedData.find? (hasId id) = some entry →
      entry.get "formType" = some (JSVal.str formType) →
      formType ∈ inheritedNames →
      handleEdit id s = Outcome.unmounted s) ∧
    (∀ (evs : List Event) (e : Event), enabledRun State.initial evs = true →
      enabled (run State.initial evs) e = true →
      ∃ s', dispatch (run State.initial evs) e = Outcome.returned s') := by
  refine ⟨fun _ _ => ⟨_, rfl⟩, fun _ _ => ⟨_, rfl⟩, fun _ => ⟨_, rfl⟩, ?_, ?_, ?_,
    handleEdit_missing, handleEdit_no_schema, handleEdit_inherited, ?_⟩
  · intro name value s hty
    exact ⟨_, handleInputChange_of_strValued name value s hty⟩
  · intro now s hty
    exact handleSubmit_returns now s hty
  · intro id s entry formType schema hfind hft hget hty
    exact ⟨_, handleEdit_returned id s entry formType schema hfind hft hget hty⟩
  · intro evs e hen he
    exact rendered_dispatch (run_rendered evs State.initial rendered_initial hen) e he

/-- Witness of C15 (amended): the edit button of the entry stored at clock
reading 1000, pressed after the timer reset. -/
theorem handlers_return_witness :
    ∃ s', handleEdit 1000 (run State.initial [Event.formTypeChange "User Information",
        Event.inputChange "firstName" "Ana", Event.inputChange "lastName" "Lee",
        Event.submit 1000, Event.timeout]) = Outcome.returned s' :=
  handlers_return.2.2.2.2.2.2.2.2.2 [Event.formTypeChange "User Information",
    Event.inputChange "firstName" "Ana", Event.inputChange "lastName" "Lee",
    Event.submit 1000, Event.timeout] (Event.edit 1000) (by decide) (by decide)

/-! ## The states a handler call can lead to -/

theorem handleEdit_cases (id : Int) (s : State) :
    (handleEdit id s).state = s ∨
    (∃ formType, API_RESPONSES.get formType = none ∧
      (handleEdit id s).state = { s with selectedFormType := formType }) ∨
    (∃ entry ∈ s.submittedData, ∃ formType schema progress,
      entry.get "formType" = some (JSVal.str formType) ∧
      API_RESPONSES.get formType = some schema ∧
      (handleEdit id s).state = { s with
        selectedFormType := formType
        formFields := schema.fields
        formData := (entry.del "id").del "formType"
        isEditing := true
        editingId := some id
        progress := progress }) := by
  unfold handleEdit
  split
  · exact Or.inl rfl
  · rename_i entry hfind
    have hmem := List.mem_of_find?_eq_some hfind
    split
    · rename_i formType hft
      split
      · rename_i hget
        split
        · exact Or.inl rfl
        · exact Or.inr (Or.inl ⟨formType, hget, rfl⟩)
      · rename_i schema hget
        simp only
        split
        · exact Or.inr (Or.inr ⟨entry, hmem, formType, schema, _, hft, hget, rfl⟩)
        · exact Or.inr (Or.inr ⟨entry, hmem, formType, schema, _, hft, hget, rfl⟩)
    · exact Or.inl rfl

theorem handleSubmit_session (now : Int) (s : State) :
    (handleSubmit now s).state.formData = s.formData ∧
    (handleSubmit now s).state.formFields = s.formFields ∧
    (handleSubmit now s).state.selectedFormType = s.selectedFormType := by
  unfold handleSubmit
  split
  · exact ⟨rfl, rfl, rfl⟩
  · split
    · exact ⟨rfl, rfl, rfl⟩
    · simp only
      split <;> exact ⟨rfl, rfl, rfl⟩

theorem handleInputChange_session (name value : String) (s : State) :
    (handleInputChange name value s).state.formData = s.formData.set name (JSVal.str value) ∧
    (handleInputChange name value s).state.formFields = s.formFields ∧
    (handleInputChange name value s).state.selectedFormType = s.selectedFormType := by
  unfold handleInputChange
  simp only
  split <;> exact ⟨rfl, rfl, rfl⟩

theorem Dict.mem_set {α : Type} (o : Dict α) (k : String) (v : α) (p : String × α)
    (h : p ∈ o.set k v) : p = (k, v) ∨ p ∈ o := by
  induction o with
  | nil =>
    simp only [Dict.set, List.mem_singleton] at h
    exact Or.inl h
  | cons q o ih =>
    obtain ⟨k0, v0⟩ := q
    by_cases h0 : k0 = k
    · simp only [Dict.set, h0, if_true, List.mem_cons] at h
      rcases h with h | h
      · exact Or.inl h
      · exact Or.inr (List.mem_cons_of_mem _ h)
    · simp only [Dict.set, h0, if_false, List.mem_cons] at h
      rcases h with h | h
      · exact Or.inr (by rw [h]; exact List.mem_cons_self _ _)
      · rcases ih h with h | h
        · exact Or.inl h
        · exact Or.inr (List.mem_cons_of_mem _ h)

theorem mem_del_del_mkEntry (data : Obj) (id : Int) (formType : String) (p : String × JSVal)
    (h : p ∈ ((mkEntry data id formType).del "id").del "formType") :
    p ∈ data ∧ p.1 ≠ "id" ∧ p.1 ≠ "formType" := by
  unfold Dict.del at h
  have h1 := List.mem_filter.mp h
  have h2 := List.mem_filter.mp h1.1
  have hf : p.1 ≠ "formType" := by simpa using h1.2
  have hi : p.1 ≠ "id" := by simpa using h2.2
  refine ⟨?_, hi, hf⟩
  unfold mkEntry at h2
  rcases Dict.mem_set _ _ _ _ h2.1 with e | e
  · exact absurd (congrArg Prod.fst e) hf
  · rcases Dict.mem_set _ _ _ _ e with e | e
    · exact absurd (congrArg Prod.fst e) hi
    · exact e

theorem strValued_del_del_mkEntry (data : Obj) (id : Int) (formType : String)
    (hty : strValued data = true) :
    strValued (((mkEntry data id formType).del "id").del "formType") = true := by
  unfold strValued at *
  rw [List.all_eq_true] at hty ⊢
  intro p hp
  exact hty p (mem_del_del_mkEntry data id formType p hp).1

theorem keys_del_del_mkEntry (data : Obj) (id : Int) (formType k : String)
    (h : k ∈ (((mkEntry data id formType).del "id").del "formType").keys) :
    k ∈ data.keys := by
  obtain ⟨p, hp, rfl⟩ := List.mem_map.mp h
  exact List.mem_map_of_mem _ (mem_del_del_mkEntry data id formType p hp).1

theorem fieldsOrEmpty_of_not_mem (type : String) (h : type ∉ API_RESPONSES.keys) :
    fieldsOrEmpty type = [] := by
  unfold fieldsOrEmpty
  cases hg : API_RESPONSES.get type with
  | none => rfl
  | some schema => exact absurd (registry_mem_of_get type schema hg).1 h

theorem no_blank_required (fs : List Field) (data : Obj) (hty : strValued data = true)
    (h : requiredErrors fs data [] = some []) :
    ∀ f ∈ fs, f.required = true → blankValue data f.name = false := by
  obtain ⟨errs, he, hp⟩ := requiredErrors_spec fs data hty []
  rw [h] at he
  have hnil : errs = [] := (Option.some.inj he).symm
  subst hnil
  intro f hf hr
  rcases hp f.name with ⟨g, -, -, -, -, hget⟩ | ⟨hno, -⟩
  · simp [Dict.get_nil] at hget
  · cases hb : blankValue data f.name with
    | false => rfl
    | true => exact absurd rfl (hno f hf hr hb)

theorem nonEmpty_of_not_blank (data : Obj) (k : String) (hty : strValued data = true)
    (h : blankValue data k = false) : nonEmptyValue data k = true := by
  unfold blankValue at h
  unfold nonEmptyValue
  cases hg : data.get k with
  | none => rw [hg] at h; simp at h
  | some v =>
    obtain ⟨str, rfl⟩ := strValued_get data k v hty hg
    rw [hg] at h
    simp only at h ⊢
    have : str ≠ "" := by
      intro e
      rw [e] at h
      simp at h
    simp [this]

theorem entryPasses_mkEntry (data : Obj) (id : Int) (formType : String)
    (hty : strValued data = true)
    (hr : requiredErrors (fieldsOrEmpty formType) data [] = some [])
    (hc : cardRule formType data [] = []) :
    entryPasses (mkEntry data id formType) = true := by
  have hget : ∀ k, k ≠ "id" → k ≠ "formType" →
      (mkEntry data id formType).get k = data.get k :=
    fun k h1 h2 => mkEntry_get_other data id formType k h1 h2
  have hnb := no_blank_required _ data hty hr
  unfold entryPasses
  rw [mkEntry_get_formType]
  simp only [Bool.and_eq_true, List.all_eq_true, Bool.or_eq_true, Bool.not_eq_true',
    decide_eq_true_eq]
  constructor
  · intro f hf
    by_cases hreq : f.required = true
    · right
      have hn := registry_field_names formType f hf
      unfold blankValue
      rw [hget f.name hn.1 hn.2]
      exact hnb f hf hreq
    · left
      simpa using hreq
  · by_cases hp : formType = "Payment Information"
    · right
      subst hp
      have hne := nonEmpty_of_not_blank data "cardNumber" hty
        (hnb (Field.mk "cardNumber" "text" "Card Number" true none) (by decide) rfl)
      rw [cardRule_of_strValued _ _ _ hty] at hc
      have h16 : sixteenDigits data "cardNumber" = true := by
        cases h : sixteenDigits data "cardNumber" with
        | true => rfl
        | false =>
          rw [if_pos ⟨rfl, hne, h⟩] at hc
          exact absurd hc (Dict.set_ne_nil _ _ _)
      unfold sixteenDigits at h16 ⊢
      rw [hget "cardNumber" (by decide) (by decide)]
      exact h16
    · left
      exact hp

/-! ## Stored entries pass validation -/

theorem sessionInv_initial : SessionInv State.initial :=
  ⟨rfl, fun _ => rfl, fun _ h => absurd h (List.not_mem_nil _)⟩

theorem sessionInv_mkEntry (s : State) (id : Int) (h : SessionInv s)
    (hv : validationErrors s = some []) :
    entryPasses (mkEntry s.formData id s.selectedFormType) = true ∧
    strValued (((mkEntry s.formData id s.selectedFormType).del "id").del "formType") = true := by
  obtain ⟨h1, h2, -⟩ := h
  obtain ⟨hr, hc⟩ := validation_passed s h1 hv
  refine ⟨entryPasses_mkEntry _ _ _ h1 ?_ hc, strValued_del_del_mkEntry _ _ _ h1⟩
  by_cases hk : s.selectedFormType ∈ API_RESPONSES.keys
  · rw [← h2 hk]
    exact hr
  · rw [fieldsOrEmpty_of_not_mem _ hk]
    rfl

theorem sessionInv_submit {s : State} (h : SessionInv s) (now : Int) :
    SessionInv (handleSubmit now s).state := by
  have h' := h
  obtain ⟨h1, h2, h3⟩ := h
  obtain ⟨errs0, -, hv, -⟩ := validationErrors_of_strValued s h1
  by_cases hne : (if s.selectedFormType = "Payment Information" ∧
            nonEmptyValue s.formData "cardNumber" = true ∧
            sixteenDigits s.formData "cardNumber" = false
         then errs0.set "cardNumber" "Card number must be 16 digits" else errs0) = []
  · rw [hne] at hv
    cases hg : editTarget s with
    | some id =>
      obtain ⟨het, hid, hz⟩ := editTarget_some s id hg
      rw [handleSubmit_replaced now id s het hid hz hv]
      refine ⟨h1, h2, ?_⟩
      intro entry he
      obtain ⟨old, hmem, rfl⟩ := List.mem_map.mp he
      by_cases hh : hasId id old = true
      · rw [if_pos hh]
        exact sessionInv_mkEntry s id h' hv
      · rw [if_neg hh]
        exact h3 old hmem
    | none =>
      rw [handleSubmit_appended now s hg hv]
      refine ⟨h1, h2, ?_⟩
      intro entry he
      rcases List.mem_append.mp he with he | he
      · exact h3 entry he
      · rw [List.mem_singleton.mp he]
        exact sessionInv_mkEntry s now h' hv
  · rw [handleSubmit_rejected now s _ hv hne]
    exact ⟨h1, h2, h3⟩

theorem sessionInv_edit {s : State} (h : SessionInv s) (id : Int) :
    SessionInv (handleEdit id s).state := by
  obtain ⟨h1, h2, h3⟩ := h
  rcases handleEdit_cases id s with e | ⟨formType, hget, e⟩ |
    ⟨entry, hmem, formType, schema, progress, -, hget, e⟩
  · rw [e]; exact ⟨h1, h2, h3⟩
  · rw [e]
    refine ⟨h1, ?_, h3⟩
    intro hk
    obtain ⟨schema, hs, -⟩ := registry_get_of_mem formType hk
    rw [hget] at hs
    exact absurd hs (by simp)
  · rw [e]
    exact ⟨(h3 entry hmem).2, fun _ => (registry_mem_of_get formType schema hget).2.symm, h3⟩

theorem sessionInv_step {s : State} (h : SessionInv s) (e : Event) :
    SessionInv (step s e) := by
  cases e with
  | formTypeChange type => exact ⟨rfl, fun _ => rfl, h.2.2⟩
  | inputChange name value =>
    show SessionInv (handleInputChange name value s).state
    rw [handleInputChange_of_strValued name value s h.1]
    exact ⟨strValued_set _ _ _ h.1, h.2.1, h.2.2⟩
  | submit now => exact sessionInv_submit h now
  | edit id => exact sessionInv_edit h id
  | delete id =>
    exact ⟨h.1, h.2.1, fun entry he => h.2.2 entry (List.mem_filter.mp he).1⟩
  | timeout =>
    have hno : ("" : String) ∉ API_RESPONSES.keys := by decide
    exact ⟨rfl, fun hk => absurd hk hno, h.2.2⟩

theorem run_sessionInv (evs : List Event) (s : State) (h : SessionInv s) :
    SessionInv (run s evs) := by
  induction evs generalizing s with
  | nil => exact h
  | cons e es ih => exact ih _ (sessionInv_step h e)

/-- C17: in every state reached from the initial state through the rendered
controls and timer resets, the field list of the session is the lookup of its
form type in the table, and every stored entry passes validation against the
schema of its own form type: every required field of that schema has a value
that is not blank, and a "Payment Information" entry has a `cardNumber` of 16
digits. -/
theorem fields_lookup_and_entries_valid (evs : List Event)
    (hen : enabledRun State.initial evs = true) :
    (run State.initial evs).formFields =
      fieldsOrEmpty (run State.initial evs).selectedFormType ∧
    (∀ entry ∈ (run State.initial evs).submittedData, entryPasses entry = true) :=
  ⟨(run_rendered evs State.initial rendered_initial hen).1,
    fun entry he => ((run_sessionInv evs State.initial sessionInv_initial).2.2 entry he).1⟩

/-- Witness of C17: a "Payment Information" entry stored through the rendered
controls, then loaded for edit. -/
theorem fields_lookup_and_entries_valid_witness :
    (run State.initial [Event.formTypeChange "Payment Information",
        Event.inputChange "cardNumber" "1234567812345678",
        Event.inputChange "expiryDate" "2030-01-01", Event.inputChange "cvv" "123",
        Event.inputChange "cardholderName" "Ana Lee", Event.submit 1000, Event.timeout,
        Event.edit 1000]).formFields = fieldsOrEmpty "Payment Information" ∧
    (∀ entry ∈ (run State.initial [Event.formTypeChange "Payment Information",
        Event.inputChange "cardNumber" "1234567812345678",
        Event.inputChange "expiryDate" "2030-01-01", Event.inputChange "cvv" "123",
        Event.inputChange "cardholderName" "Ana Lee", Event.submit 1000, Event.timeout,
        Event.edit 1000]).submittedData, entryPasses entry = true) ∧
    (run State.initial [Event.formTypeChange "Payment Information",
        Event.inputChange "cardNumber" "1234567812345678",
        Event.inputChange "expiryDate" "2030-01-01", Event.inputChange "cvv" "123",
        Event.inputChange "cardholderName" "Ana Lee", Event.submit 1000, Event.timeout,
        Event.edit 1000]).submittedData.length = 1 :=
  ⟨(fields_lookup_and_entries_valid _ (by decide)).1.trans (by decide),
   (fields_lookup_and_entries_valid _ (by decide)).2, by decide⟩

/-! ## The keys of the session values -/

theorem keysInv_initial : KeysInv State.initial :=
  ⟨fun _ h => absurd h (List.not_mem_nil _), fun _ => rfl,
    fun _ h => absurd h (List.not_mem_nil _)⟩

theorem keysInv_inputChange {s : State} (h : KeysInv s) (name value : String)
    (hname : name ∈ s.formFields.map Field.name) :
    KeysInv (handleInputChange name value s).state := by
  obtain ⟨h1, h2, h3⟩ := h
  obtain ⟨e1, e2, e3⟩ := handleInputChange_session name value s
  refine ⟨?_, ?_, ?_⟩
  · rw [e1, e2]
    intro k hk
    rcases Dict.mem_keys_set _ _ _ _ hk with e | e
    · rw [e]; exact hname
    · exact h1 k e
  · rw [e2, e3]; exact h2
  · rw [handleInputChange_store]; exact h3

theorem keysInv_mkEntry (s : State) (id : Int) (h : KeysInv s) :
    ∀ formType schema,
      (mkEntry s.formData id s.selectedFormType).get "formType" = some (JSVal.str formType) →
      API_RESPONSES.get formType = some schema →
      ∀ k ∈ (((mkEntry s.formData id s.selectedFormType).del "id").del "formType").keys,
        k ∈ schema.fields.map Field.name := by
  intro formType schema hft hget k hk
  rw [mkEntry_get_formType] at hft
  have hsel : s.selectedFormType = formType := by
    injection hft with h1
    injection h1
  obtain ⟨hkey, hf⟩ := registry_mem_of_get formType schema hget
  rw [← hsel] at hkey hf
  rw [← hf, ← h.2.1 hkey]
  exact h.1 k (keys_del_del_mkEntry _ _ _ k hk)

theorem keysInv_submit {s : State} (h : KeysInv s) (now : Int) :
    KeysInv (handleSubmit now s).state := by
  have h' := h
  obtain ⟨h1, h2, h3⟩ := h
  obtain ⟨e1, e2, e3⟩ := handleSubmit_session now s
  refine ⟨by rw [e1, e2]; exact h1, by rw [e2, e3]; exact h2, ?_⟩
  rcases handleSubmit_store now s with e | ⟨id, e⟩ | e
  · rw [e]; exact h3
  · rw [e]
    intro entry he
    obtain ⟨old, hmem, rfl⟩ := List.mem_map.mp he
    by_cases hh : hasId id old = true
    · rw [if_pos hh]
      exact keysInv_mkEntry s id h'
    · rw [if_neg hh]
      exact h3 old hmem
  · rw [e]
    intro entry he
    rcases List.mem_append.mp he with he | he
    · exact h3 entry he
    · rw [List.mem_singleton.mp he]
      exact keysInv_mkEntry s now h'

theorem keysInv_edit {s : State} (h : KeysInv s) (id : Int) :
    KeysInv (handleEdit id s).state := by
  obtain ⟨h1, h2, h3⟩ := h
  rcases handleEdit_cases id s with e | ⟨formType, hget, e⟩ |
    ⟨entry, hmem, formType, schema, progress, hft, hget, e⟩
  · rw [e]; exact ⟨h1, h2, h3⟩
  · rw [e]
    refine ⟨h1, ?_, h3⟩
    intro hk
    obtain ⟨schema, hs, -⟩ := registry_get_of_mem formType hk
    rw [hget] at hs
    exact absurd hs (by simp)
  · rw [e]
    exact ⟨h3 entry hmem formType schema hft hget,
      fun _ => (registry_mem_of_get formType schema hget).2.symm, h3⟩

theorem run_keysInv (evs : List Event) (s : State) (h : KeysInv s)
    (hnamed : inputsNamed s evs = true) : KeysInv (run s evs) := by
  induction evs generalizing s with
  | nil => exact h
  | cons e es ih =>
    cases e with
    | formTypeChange type =>
      exact ih _ ⟨fun _ hk => absurd hk (List.not_mem_nil _), fun _ => rfl, h.2.2⟩ hnamed
    | inputChange name value =>
      simp only [inputsNamed, Bool.and_eq_true, decide_eq_true_eq] at hnamed
      exact ih _ (keysInv_inputChange h name value hnamed.1) hnamed.2
    | submit now => exact ih _ (keysInv_submit h now) hnamed
    | edit id => exact ih _ (keysInv_edit h id) hnamed
    | delete id =>
      exact ih _ ⟨h.1, h.2.1, fun entry he => h.2.2 entry (List.mem_filter.mp he).1⟩ hnamed
    | timeout =>
      have hno : ("" : String) ∉ API_RESPONSES.keys := by decide
      exact ih _ ⟨fun _ hk => absurd hk (List.not_mem_nil _), fun hk => absurd hk hno,
        h.2.2⟩ hnamed

/-- C13: in every state reached from the initial state by handler calls and
timer resets in which `handleInputChange` is only called with the name of a
field of the current field list, every key of the session values is the name
of a field of the current field list; and `handleFormTypeChange` leaves no key
at all. -/
theorem values_keys_in_schema :
    (∀ evs : List Event, inputsNamed State.initial evs = true →
      ∀ k ∈ (run State.initial evs).formData.keys,
        k ∈ (run State.initial evs).formFields.map Field.name) ∧
    (∀ (type : String) (s : State), (handleFormTypeChange type s).formData.keys = []) := by
  refine ⟨fun evs hnamed => (run_keysInv evs State.initial keysInv_initial hnamed).1,
    fun _ _ => rfl⟩

/-- Witness of C13: an address is typed, the form type is changed to "User
Information", a first name is typed, the form is submitted and the entry is
loaded again. -/
theorem values_keys_in_schema_witness :
    (run State.initial [Event.formTypeChange "Address Information",
        Event.inputChange "street" "1 Main St", Event.inputChange "city" "Austin",
        Event.formTypeChange "User Information", Event.inputChange "firstName" "Ana",
        Event.inputChange "lastName" "Lee", Event.submit 1000, Event.timeout,
        Event.edit 1000]).formData.keys = ["firstName", "lastName"] ∧
    ∀ k ∈ (run State.initial [Event.formTypeChange "Address Information",
        Event.inputChange "street" "1 Main St", Event.inputChange "city" "Austin",
        Event.formTypeChange "User Information", Event.inputChange "firstName" "Ana",
        Event.inputChange "lastName" "Lee", Event.submit 1000, Event.timeout,
        Event.edit 1000]).formData.keys,
      k ∈ (run State.initial [Event.formTypeChange "Address Information",
        Event.inputChange "street" "1 Main St", Event.inputChange "city" "Austin",
        Event.formTypeChange "User Information", Event.inputChange "firstName" "Ana",
        Event.inputChange "lastName" "Lee", Event.submit 1000, Event.timeout,
        Event.edit 1000]).formFields.map Field.name :=
  ⟨by decide, values_keys_in_schema.1 _ (by decide)⟩

end DynamicForm
